import Mathlib

/-!
Verification of the riffy WAV parser (`src/riffy/wav.py`) against its
natural-language specification.

The Python code is shallowly embedded: byte streams are `List Nat`
(each element a byte value), Python `dict` (insertion ordered, keyed
update in place) is an association list with in-place keyed update,
Python exceptions are an explicit error type threaded through
`Except` / result pairs, and `float` arithmetic on durations is
modelled with exact rationals.  File-system concerns (paths, the
overwrite guard comparing resolved paths, sinks) are outside the byte
model: `write_wav` and the export operations return the bytes that
would be written together with the byte count.
-/

namespace Riffy

/-- Little-endian unsigned decode of a byte list (struct.unpack of
"<H" on 2 bytes, "<I" on 4 bytes). -/
def unpackLE : List Nat → Nat
  | [] => 0
  | b :: rest => b + 256 * unpackLE rest

/-- Little-endian encode of a value into 4 bytes (struct.pack "<I"),
value taken mod 2^32. -/
def pack4 (n : Nat) : List Nat :=
  [n % 256, n / 256 % 256, n / 65536 % 256, n / 16777216 % 256]

/-- The four ASCII bytes of the chunk id "fmt ". -/
def fmtId : List Nat := [102, 109, 116, 32]

/-- The four ASCII bytes of the chunk id "data". -/
def dataId : List Nat := [100, 97, 116, 97]

/-- The four ASCII bytes "RIFF". -/
def riffTag : List Nat := [82, 73, 70, 70]

/-- The four ASCII bytes "WAVE". -/
def waveTag : List Nat := [87, 65, 86, 69]

/-- WAV format information (dataclass WAVFormat). `duration_seconds`
is a Python float computed by exact division; modelled as a rational. -/
structure WAVFormat where
  audio_format : Nat
  channels : Nat
  sample_rate : Nat
  byte_rate : Nat
  block_align : Nat
  bits_per_sample : Nat
  duration_seconds : Rat := 0
deriving DecidableEq

/-- WAVFormat.is_pcm property. -/
def WAVFormat.is_pcm (f : WAVFormat) : Bool := f.audio_format == 1

/-- A RIFF chunk record (dataclass WAVChunk). -/
structure WAVChunk where
  id : List Nat
  size : Nat
  data : List Nat
  offset : Nat
deriving DecidableEq

/-- Error values: each constructor is one Python exception class
raised by wav.py; messages are the static part of the Python message. -/
inductive WAVErr where
  | corruptedFile (msg : String)
  | invalidFormat (msg : String)
  | wavError (msg : String)
  | keyError (msg : String)
  | valueError (msg : String)
  | zeroDivisionError
deriving DecidableEq

/-- Mutable state of a WAVParser object: format_info, the chunk store
(Python dict, insertion ordered), and the cached audio_data alias. -/
structure ParserState where
  format_info : Option WAVFormat
  chunks : List (List Nat × WAVChunk)
  audio_data : Option (List Nat)
deriving DecidableEq

/-- The state of a freshly constructed WAVParser. -/
def initState : ParserState := ⟨none, [], none⟩

/-- dict lookup `self.chunks[chunk_id]` / `chunk_id in self.chunks`. -/
def lookupChunk : List (List Nat × WAVChunk) → List Nat → Option WAVChunk
  | [], _ => none
  | (k, c) :: rest, id => if k = id then some c else lookupChunk rest id

/-- dict assignment `self.chunks[chunk_id] = chunk`: updates in place
if the key is present (keeping its position), else appends. -/
def insertChunk : List (List Nat × WAVChunk) → List Nat → WAVChunk → List (List Nat × WAVChunk)
  | [], id, c => [(id, c)]
  | (k, v) :: rest, id, c =>
      if k = id then (k, c) :: rest else (k, v) :: insertChunk rest id c

/-- WAVParser._parse_format_chunk: decode a "fmt " payload. -/
def parseFormatChunk (data : List Nat) : Except WAVErr WAVFormat :=
  if data.length < 16 then
    .error (.invalidFormat "Format chunk too small")
  else
    let audio_format := unpackLE (data.take 2)
    let channels := unpackLE ((data.drop 2).take 2)
    let sample_rate := unpackLE ((data.drop 4).take 4)
    let byte_rate := unpackLE ((data.drop 8).take 4)
    let block_align := unpackLE ((data.drop 12).take 2)
    let bits_per_sample := unpackLE ((data.drop 14).take 2)
    if audio_format ≠ 1 ∧ data.length < 18 then
      .error (.invalidFormat "requires at least 18 bytes in format chunk")
    else if audio_format ≠ 1 ∧ data.length < 18 + unpackLE ((data.drop 16).take 2) then
      .error (.invalidFormat "Format chunk size is smaller than expected")
    else
      .ok { audio_format := audio_format, channels := channels,
            sample_rate := sample_rate, byte_rate := byte_rate,
            block_align := block_align, bits_per_sample := bits_per_sample,
            duration_seconds := 0 }

/-- WAVParser._calculate_duration.  Python truthiness: the guard
`self.audio_data and self.format_info and byte_rate > 0` requires
audio_data to be present AND non-empty. -/
def calculate_duration (st : ParserState) : ParserState :=
  match st.audio_data, st.format_info with
  | some ad, some f =>
      if ad ≠ [] ∧ 0 < f.byte_rate then
        let f2 := { f with duration_seconds := (ad.length : Rat) / (f.byte_rate : Rat) }
        { st with format_info := some f2 }
      else st
  | _, _ => st

/-- WAVParser._validate_format. -/
def validate_format (st : ParserState) : Except WAVErr Unit :=
  match st.format_info with
  | none => .error (.invalidFormat "No format chunk found")
  | some f =>
      if ¬ f.is_pcm then
        .error (.invalidFormat "Unsupported audio format (only PCM is supported)")
      else if f.channels = 0 then
        .error (.invalidFormat "Invalid number of channels")
      else if f.sample_rate = 0 then
        .error (.invalidFormat "Invalid sample rate")
      else if st.audio_data = none then
        .error (.invalidFormat "No audio data found")
      else
        .ok ()

/-- WAVParser._calculate_sample_count.  Python raises
ZeroDivisionError when `(bits_per_sample // 8) * channels == 0` and
audio data is non-empty; the early return fires when audio_data is
None or empty (truthiness) or format_info is absent. -/
def calculate_sample_count (st : ParserState) : Except WAVErr Nat :=
  match st.audio_data, st.format_info with
  | some ad, some f =>
      if ad = [] then .ok 0
      else
        let bytes_per_sample := f.bits_per_sample / 8
        if bytes_per_sample * f.channels = 0 then .error .zeroDivisionError
        else .ok (ad.length / (bytes_per_sample * f.channels))
  | _, _ => .ok 0

/-- The summary dictionary returned by WAVParser.get_info, restricted
to its content fields (file_path and file_size are I/O identity). -/
structure WAVInfo where
  audio_format : Nat
  channels : Nat
  sample_rate : Nat
  byte_rate : Nat
  block_align : Nat
  bits_per_sample : Nat
  is_pcm : Bool
  duration_seconds : Rat
  audio_data_size : Nat
  sample_count : Nat
  chunks : List (List Nat × Nat)
deriving DecidableEq

/-- WAVParser.get_info.  The sample-count computation may raise. -/
def get_info (st : ParserState) : Except WAVErr WAVInfo :=
  match st.format_info with
  | none => .error (.wavError "File not parsed yet. Call parse() first.")
  | some f =>
      match calculate_sample_count st with
      | .error e => .error e
      | .ok sc =>
          .ok { audio_format := f.audio_format, channels := f.channels,
                sample_rate := f.sample_rate, byte_rate := f.byte_rate,
                block_align := f.block_align, bits_per_sample := f.bits_per_sample,
                is_pcm := f.is_pcm,
                duration_seconds := f.duration_seconds,
                audio_data_size := (st.audio_data.getD []).length,
                sample_count := sc,
                chunks := st.chunks.map (fun p => (p.1, p.2.size)) }

/-- The chunk walker's local variable `chunk_id` (raw bytes): the
first 4 bytes of the 8-byte chunk header. -/
def chunkIdOf (bs : List Nat) : List Nat := bs.take 4

/-- The chunk walker's local variable `chunk_size`: bytes 4..8 of the
chunk header, little-endian. -/
def chunkSizeOf (bs : List Nat) : Nat := unpackLE ((bs.drop 4).take 4)

/-- The chunk walker's local variable `chunk_data`: the declared
number of payload bytes after the header. -/
def chunkDataOf (bs : List Nat) : List Nat := (bs.drop 8).take (chunkSizeOf bs)

/-- The WAVChunk record the walker stores for the chunk at the head
of `bs`, read at stream position `pos`. -/
def chunkOf (bs : List Nat) (pos : Nat) : WAVChunk :=
  { id := chunkIdOf bs, size := chunkSizeOf bs, data := chunkDataOf bs, offset := pos + 8 }

/-- Stream bytes consumed per iteration: 8-byte header, payload, and
the pad byte after an odd-sized payload. -/
def consumedOf (bs : List Nat) : Nat :=
  8 + chunkSizeOf bs + (if chunkSizeOf bs % 2 = 1 then 1 else 0)

/-- WAVParser._parse_chunks: the chunk-walk loop.  `bs` is the
remaining stream, `pos` the current stream position (f.tell()).
Python's loop locals chunk_id / chunk_size / chunk_data are the
helper functions chunkIdOf / chunkSizeOf / chunkDataOf.  Returns the
state reached together with the error that aborted the walk, if any;
Python mutates `self` as it goes, so the partial state on error is
observable. -/
def parse_chunks (bs : List Nat) (pos : Nat) (st : ParserState) : ParserState × Option WAVErr :=
  if _h : bs.length < 8 then (st, none)
  else if ¬ ((chunkIdOf bs).all fun b => b < 128) then
    (st, some (.corruptedFile "Invalid chunk ID (non-ASCII bytes)"))
  else if (chunkIdOf bs).length ≠ 4 then
    (st, some (.corruptedFile "Invalid chunk ID length"))
  else if (chunkDataOf bs).length ≠ chunkSizeOf bs then
    (st, some (.corruptedFile "Incomplete chunk"))
  else if chunkIdOf bs = fmtId then
    match parseFormatChunk (chunkDataOf bs) with
    | .error e =>
        ({ st with chunks := insertChunk st.chunks (chunkIdOf bs) (chunkOf bs pos) }, some e)
    | .ok f =>
        parse_chunks (bs.drop (consumedOf bs)) (pos + consumedOf bs)
          { st with chunks := insertChunk st.chunks (chunkIdOf bs) (chunkOf bs pos),
                    format_info := some f }
  else if chunkIdOf bs = dataId then
    parse_chunks (bs.drop (consumedOf bs)) (pos + consumedOf bs)
      { st with chunks := insertChunk st.chunks (chunkIdOf bs) (chunkOf bs pos),
                audio_data := some (chunkDataOf bs) }
  else
    parse_chunks (bs.drop (consumedOf bs)) (pos + consumedOf bs)
      { st with chunks := insertChunk st.chunks (chunkIdOf bs) (chunkOf bs pos) }
termination_by bs.length
decreasing_by
  all_goals simp only [List.length_drop, consumedOf]; omega

/-- WAVParser.parse on a byte stream: RIFF header check, chunk walk,
duration computation, validation, and the summary.  Returns the final
object state together with the result; the declared riff size field
(offset 4) is read but never validated. -/
def parse (bs : List Nat) : ParserState × Except WAVErr WAVInfo :=
  if bs.length < 12 then
    (initState, .error (.corruptedFile "File too small to be a valid WAV file"))
  else if bs.take 4 ≠ riffTag then
    (initState, .error (.invalidFormat "Not a valid RIFF file"))
  else if (bs.drop 8).take 4 ≠ waveTag then
    (initState, .error (.invalidFormat "Not a valid WAV file"))
  else
    match parse_chunks (bs.drop 12) 12 initState with
    | (st1, some e) => (st1, .error e)
    | (st1, none) =>
        match validate_format (calculate_duration st1) with
        | .error e => (calculate_duration st1, .error e)
        | .ok _ => (calculate_duration st1, get_info (calculate_duration st1))

/-- WAVParser.replace_chunk. -/
def replace_chunk (st : ParserState) (chunk_id : List Nat) (new_data : List Nat) :
    Except WAVErr ParserState :=
  match st.format_info with
  | none => .error (.wavError "File not parsed yet. Call parse() first.")
  | some _ =>
      match lookupChunk st.chunks chunk_id with
      | none => .error (.keyError "Chunk not found")
      | some old_chunk =>
          let c : WAVChunk :=
            { id := chunk_id, size := new_data.length, data := new_data,
              offset := old_chunk.offset }
          let st1 := { st with chunks := insertChunk st.chunks chunk_id c }
          if chunk_id = dataId then
            .ok (calculate_duration { st1 with audio_data := some new_data })
          else
            .ok st1

/-- WAVParser.add_chunk. -/
def add_chunk (st : ParserState) (chunk_id : List Nat) (chunk_data : List Nat) :
    Except WAVErr ParserState :=
  match st.format_info with
  | none => .error (.wavError "File not parsed yet. Call parse() first.")
  | some _ =>
      if chunk_id.length ≠ 4 then
        .error (.valueError "Chunk ID must be exactly 4 characters")
      else if ¬ (chunk_id.all fun b => b < 128) then
        .error (.valueError "Chunk ID must contain only ASCII characters")
      else if (lookupChunk st.chunks chunk_id).isSome then
        .error (.valueError "Chunk already exists. Use replace_chunk() to modify it.")
      else
        let c : WAVChunk :=
          { id := chunk_id, size := chunk_data.length, data := chunk_data, offset := 0 }
        .ok { st with chunks := insertChunk st.chunks chunk_id c }

/-- WAVParser.set_chunk. -/
def set_chunk (st : ParserState) (chunk_id : List Nat) (chunk_data : List Nat) :
    Except WAVErr ParserState :=
  match st.format_info with
  | none => .error (.wavError "File not parsed yet. Call parse() first.")
  | some _ =>
      if chunk_id.length ≠ 4 then
        .error (.valueError "Chunk ID must be exactly 4 characters")
      else if ¬ (chunk_id.all fun b => b < 128) then
        .error (.valueError "Chunk ID must contain only ASCII characters")
      else if (lookupChunk st.chunks chunk_id).isSome then
        replace_chunk st chunk_id chunk_data
      else
        add_chunk st chunk_id chunk_data

/-- WAVParser.copy_chunk_from_parser (renamed: copies a chunk out of
another parsed session into this one via set_chunk). -/
def copy_chunk_from_session (st : ParserState) (chunk_id : List Nat)
    (source : ParserState) : Except WAVErr ParserState :=
  match st.format_info with
  | none => .error (.wavError "File not parsed yet. Call parse() first.")
  | some _ =>
      match source.format_info with
      | none => .error (.wavError "Source has not been parsed yet.")
      | some _ =>
          match lookupChunk source.chunks chunk_id with
          | none => .error (.keyError "Chunk not found in source")
          | some source_chunk => set_chunk st chunk_id source_chunk.data

/-- WAVParser.export_chunk: the bytes written to the sink and the
returned byte count. -/
def export_chunk (st : ParserState) (chunk_id : List Nat) :
    Except WAVErr (List Nat × Nat) :=
  match st.format_info with
  | none => .error (.wavError "File not parsed yet. Call parse() first.")
  | some _ =>
      match lookupChunk st.chunks chunk_id with
      | none => .error (.keyError "Chunk not found")
      | some chunk => .ok (chunk.data, chunk.data.length)

/-- WAVParser.export_audio_data.  Python truthiness: `not
self.audio_data` is true for None and for the empty byte string. -/
def export_audio_data (st : ParserState) : Except WAVErr (List Nat × Nat) :=
  match st.format_info with
  | none => .error (.wavError "File not parsed yet. Call parse() first.")
  | some _ =>
      match st.audio_data with
      | none => .error (.wavError "No audio data available to export.")
      | some ad =>
          if ad = [] then .error (.wavError "No audio data available to export.")
          else export_chunk st dataId

/-- Lexicographic byte-list comparison, the order Python sorted() uses
on ASCII chunk-id strings. -/
def keyLe : List Nat → List Nat → Bool
  | [], _ => true
  | _ :: _, [] => false
  | x :: xs, y :: ys => if x < y then true else if y < x then false else keyLe xs ys

/-- Insert a key into a keyLe-sorted list. -/
def insertSorted (k : List Nat) : List (List Nat) → List (List Nat)
  | [] => [k]
  | x :: xs => if keyLe k x then k :: x :: xs else x :: insertSorted k xs

/-- sorted(self.chunks.keys()): insertion sort by keyLe. -/
def sortKeys : List (List Nat) → List (List Nat)
  | [] => []
  | x :: xs => insertSorted x (sortKeys xs)

/-- Pad byte count of a chunk of the given size. -/
def chunkPad (size : Nat) : Nat := if size % 2 = 1 then 1 else 0

/-- The bytes write_wav emits for one chunk: header, payload, pad. -/
def serialize_chunk (c : WAVChunk) : List Nat :=
  c.id ++ pack4 c.size ++ c.data ++ (if c.size % 2 = 1 then [0] else [])

/-- The keys write_wav appends after "fmt " and "data": all store
keys other than those two, in ascending lexicographic order
(`sorted(self.chunks.keys())` filtered by `not in chunk_order`). -/
def otherKeys (st : ParserState) : List (List Nat) :=
  (sortKeys (st.chunks.map Prod.fst)).filter
    (fun k => ¬ (k = fmtId ∨ k = dataId))

/-- The deterministic chunk order write_wav uses: "fmt ", then "data",
then the remaining keys in ascending lexicographic order. -/
def writeOrder (st : ParserState) : List (List Nat) :=
  fmtId :: dataId :: otherKeys st

/-- Sum, over the chunk store, of each chunk record's on-disk
footprint 8 + size + pad, plus 4 for the "WAVE" tag: the recomputed
RIFF size of write_wav. -/
def riffSizeOf (st : ParserState) : Nat :=
  st.chunks.foldl (fun acc p => acc + 8 + p.2.size + chunkPad p.2.size) 4

/-- Dict indexing `self.chunks[chunk_id]` inside write_wav: every id
in the write order is a store key, so the default is never used. -/
def chunkAtKey (st : ParserState) (k : List Nat) : WAVChunk :=
  (lookupChunk st.chunks k).getD ⟨[], 0, [], 0⟩

/-- The full output byte stream of write_wav: 12-byte RIFF header
with the recomputed size, then the chunks in the deterministic
order. -/
def writeBytes (st : ParserState) : List Nat :=
  riffTag ++ pack4 (riffSizeOf st) ++ waveTag ++
    ((writeOrder st).map (fun k => serialize_chunk (chunkAtKey st k))).flatten

/-- The byte count write_wav returns: 12 for the header plus, per
chunk, 8 + declared size + pad. -/
def writeCount (st : ParserState) : Nat :=
  (writeOrder st).foldl
    (fun acc k => acc + 8 + (chunkAtKey st k).size + chunkPad (chunkAtKey st k).size) 12

/-- WAVParser.write_wav on the byte level: returns the output bytes
and the returned byte count.  The source-path overwrite guard is an
I/O-path concern outside the byte model. -/
def write_wav (st : ParserState) : Except WAVErr (List Nat × Nat) :=
  match st.format_info with
  | none => .error (.wavError "File not parsed yet. Call parse() first.")
  | some _ =>
      if (lookupChunk st.chunks fmtId).isNone then
        .error (.invalidFormat "Cannot write WAV file without fmt chunk")
      else if (lookupChunk st.chunks dataId).isNone then
        .error (.invalidFormat "Cannot write WAV file without data chunk")
      else
        .ok (writeBytes st, writeCount st)

/-- Well-formedness of one chunk record stored under key `k`. -/
def ChunkWF (k : List Nat) (c : WAVChunk) : Prop :=
  c.id = k ∧ k.length = 4 ∧ (∀ b ∈ k, b < 128) ∧
  c.size = c.data.length ∧ c.size < 4294967296

/-- Well-formedness of the chunk store: every record well formed and
keys unique. -/
def StoreWF (l : List (List Nat × WAVChunk)) : Prop :=
  (∀ p ∈ l, ChunkWF p.1 p.2) ∧ (l.map Prod.fst).Nodup

theorem unpackLE_pack4 (n : Nat) : unpackLE (pack4 n) = n % 4294967296 := by
  simp [unpackLE, pack4]; omega

theorem pack4_length (n : Nat) : (pack4 n).length = 4 := rfl

theorem unpackLE_lt_pow (l : List Nat) (h : ∀ b ∈ l, b < 256) :
    unpackLE l < 256 ^ l.length := by
  induction l with
  | nil => simp [unpackLE]
  | cons b rest ih =>
      have hb : b < 256 := h b (by simp)
      have hr : unpackLE rest < 256 ^ rest.length := ih (fun x hx => h x (by simp [hx]))
      simp only [unpackLE, List.length_cons, pow_succ]
      have : 256 ^ rest.length * 256 = 256 * 256 ^ rest.length := by ring
      rw [this]
      omega

theorem unpackLE_lt_2_32 (l : List Nat) (h : ∀ b ∈ l, b < 256)
    (hl : l.length ≤ 4) : unpackLE l < 4294967296 := by
  have h1 := unpackLE_lt_pow l h
  have h2 : (256 : Nat) ^ l.length ≤ 256 ^ 4 := Nat.pow_le_pow_right (by norm_num) hl
  have : (256 : Nat) ^ 4 = 4294967296 := by norm_num
  omega

theorem serialize_chunk_length (c : WAVChunk) (hid : c.id.length = 4)
    (hsz : c.size = c.data.length) :
    (serialize_chunk c).length = 8 + c.size + chunkPad c.size := by
  simp [serialize_chunk, chunkPad, pack4, hid, ← hsz]
  split <;> simp <;> omega

theorem parseFormatChunk_duration (d : List Nat) (f : WAVFormat)
    (h : parseFormatChunk d = .ok f) : f.duration_seconds = 0 := by
  unfold parseFormatChunk at h
  by_cases h1 : d.length < 16
  · simp [h1] at h
  · by_cases h2 : unpackLE (d.take 2) ≠ 1 ∧ d.length < 18
    · simp [h1, h2] at h
    · by_cases h3 : unpackLE (d.take 2) ≠ 1 ∧ d.length < 18 + unpackLE ((d.drop 16).take 2)
      · simp [h1, h2, h3] at h
        split at h <;> simp at h
      · simp [h1, h2, h3] at h
        rw [← h]

theorem lookup_insert_self (l : List (List Nat × WAVChunk)) (id : List Nat)
    (c : WAVChunk) : lookupChunk (insertChunk l id c) id = some c := by
  induction l with
  | nil => simp [insertChunk, lookupChunk]
  | cons p rest ih =>
      obtain ⟨k, v⟩ := p
      by_cases hk : k = id
      · simp [insertChunk, hk, lookupChunk]
      · simp [insertChunk, hk, lookupChunk, ih]

theorem lookup_insert_ne (l : List (List Nat × WAVChunk)) (id id' : List Nat)
    (c : WAVChunk) (h : id' ≠ id) :
    lookupChunk (insertChunk l id c) id' = lookupChunk l id' := by
  induction l with
  | nil => simp [insertChunk, lookupChunk, Ne.symm h]
  | cons p rest ih =>
      obtain ⟨k, v⟩ := p
      by_cases hk : k = id
      · subst hk
        simp [insertChunk, lookupChunk, Ne.symm h]
      · simp [insertChunk, hk, lookupChunk]
        split <;> simp [ih]

theorem mem_insertChunk (l : List (List Nat × WAVChunk)) (id : List Nat)
    (c : WAVChunk) (p : List Nat × WAVChunk) (h : p ∈ insertChunk l id c) :
    p = (id, c) ∨ p ∈ l := by
  induction l with
  | nil => simp [insertChunk] at h; simp [h]
  | cons q rest ih =>
      obtain ⟨k, v⟩ := q
      by_cases hk : k = id
      · subst hk
        simp [insertChunk] at h
        rcases h with h | h
        · exact Or.inl (by simp [h])
        · exact Or.inr (by simp [h])
      · simp [insertChunk, hk] at h
        rcases h with h | h
        · exact Or.inr (by simp [h])
        · rcases ih h with h1 | h1
          · exact Or.inl h1
          · exact Or.inr (by simp [h1])

theorem insertChunk_keys (l : List (List Nat × WAVChunk)) (id : List Nat)
    (c : WAVChunk) :
    (insertChunk l id c).map Prod.fst =
      if id ∈ l.map Prod.fst then l.map Prod.fst else l.map Prod.fst ++ [id] := by
  induction l with
  | nil => simp [insertChunk]
  | cons p rest ih =>
      obtain ⟨k, v⟩ := p
      by_cases hk : k = id
      · simp [insertChunk, hk]
      · by_cases hmem : id ∈ rest.map Prod.fst
        · simp [insertChunk, hk, ih, hmem, List.mem_cons]
        · simp [insertChunk, hk, ih, hmem, List.mem_cons, Ne.symm hk]

theorem insertChunk_keys_nodup (l : List (List Nat × WAVChunk)) (id : List Nat)
    (c : WAVChunk) (h : (l.map Prod.fst).Nodup) :
    ((insertChunk l id c).map Prod.fst).Nodup := by
  rw [insertChunk_keys]
  split
  · exact h
  · next hmem => simp [List.nodup_append, h, hmem]

theorem lookup_isSome_iff_mem (l : List (List Nat × WAVChunk)) (k : List Nat) :
    (lookupChunk l k).isSome ↔ k ∈ l.map Prod.fst := by
  induction l with
  | nil => simp [lookupChunk]
  | cons p rest ih =>
      obtain ⟨k', v⟩ := p
      by_cases hk : k' = k
      · simp [lookupChunk, hk]
      · simp [lookupChunk, hk, ih, Ne.symm hk]

theorem lookup_mem (l : List (List Nat × WAVChunk)) (k : List Nat)
    (c : WAVChunk) (h : lookupChunk l k = some c) : (k, c) ∈ l := by
  induction l with
  | nil => simp [lookupChunk] at h
  | cons p rest ih =>
      obtain ⟨k', v⟩ := p
      by_cases hk : k' = k
      · subst hk
        simp [lookupChunk] at h
        simp [h]
      · simp [lookupChunk, hk] at h
        exact List.mem_cons_of_mem _ (ih h)

theorem lookup_wf (l : List (List Nat × WAVChunk)) (k : List Nat) (c : WAVChunk)
    (hwf : ∀ p ∈ l, ChunkWF p.1 p.2) (h : lookupChunk l k = some c) :
    ChunkWF k c :=
  hwf (k, c) (lookup_mem l k c h)

theorem dataId_ne_fmtId : dataId ≠ fmtId := by decide

theorem fmtId_ne_dataId : fmtId ≠ dataId := by decide

/-- The state transition the chunk walker performs for one serialized
chunk (insert, then the "fmt "/"data" special cases). -/
def stepState (st : ParserState) (pos : Nat) (c : WAVChunk) : ParserState :=
  let st1 := { st with chunks := insertChunk st.chunks c.id { c with offset := pos + 8 } }
  if c.id = fmtId then
    match parseFormatChunk c.data with
    | .ok f => { st1 with format_info := some f }
    | .error _ => st1
  else if c.id = dataId then { st1 with audio_data := some c.data }
  else st1

theorem parse_chunks_cons (c : WAVChunk) (rest : List Nat) (pos : Nat)
    (st : ParserState) (hwf : ChunkWF c.id c)
    (hfmt : c.id = fmtId → ∃ f, parseFormatChunk c.data = Except.ok f) :
    parse_chunks (serialize_chunk c ++ rest) pos st =
      parse_chunks rest (pos + (8 + c.size + chunkPad c.size)) (stepState st pos c) := by
  obtain ⟨hid, hlen4, hascii, hsz, hlt⟩ := hwf
  have hp4 : (pack4 c.size).length = 4 := pack4_length c.size
  have hser : serialize_chunk c ++ rest =
      c.id ++ (pack4 c.size ++ (c.data ++ ((if c.size % 2 = 1 then [0] else []) ++ rest))) := by
    simp [serialize_chunk, List.append_assoc]
  have hser8 : serialize_chunk c ++ rest =
      (c.id ++ pack4 c.size) ++ (c.data ++ ((if c.size % 2 = 1 then [0] else []) ++ rest)) := by
    simp [hser, List.append_assoc]
  have hlen8 : ¬ (serialize_chunk c ++ rest).length < 8 := by
    rw [hser8]
    simp only [List.length_append, hlen4, hp4]
    omega
  have hA : chunkIdOf (serialize_chunk c ++ rest) = c.id := by
    rw [chunkIdOf, hser]; exact List.take_left' hlen4
  have hB : chunkSizeOf (serialize_chunk c ++ rest) = c.size := by
    rw [chunkSizeOf, hser, List.drop_left' hlen4, List.take_left' hp4,
        unpackLE_pack4, Nat.mod_eq_of_lt hlt]
  have hdrop8 : (serialize_chunk c ++ rest).drop 8 =
      c.data ++ ((if c.size % 2 = 1 then [0] else []) ++ rest) := by
    rw [hser8]
    exact List.drop_left' (by rw [List.length_append, hlen4, hp4])
  have hC : chunkDataOf (serialize_chunk c ++ rest) = c.data := by
    rw [chunkDataOf, hB, hdrop8]
    exact List.take_left' hsz.symm
  have hchunk : chunkOf (serialize_chunk c ++ rest) pos = { c with offset := pos + 8 } := by
    rw [chunkOf, hA, hB, hC]
  have hcons : consumedOf (serialize_chunk c ++ rest) = 8 + c.size + chunkPad c.size := by
    rw [consumedOf, hB, chunkPad]
  have hdropc : (serialize_chunk c ++ rest).drop (8 + c.size + chunkPad c.size) = rest :=
    List.drop_left' (serialize_chunk_length c hlen4 hsz)
  have hall : (c.id.all fun b => b < 128) = true := by
    rw [List.all_eq_true]
    intro b hb
    simpa using hascii b hb
  conv_lhs => rw [parse_chunks]
  rw [dif_neg hlen8]
  simp only [hA, hB, hC, hchunk, hcons, hdropc, hlen4]
  rw [if_neg (by simp [hall])]
  rw [if_neg (by simp)]
  rw [if_neg (by simp [hsz])]
  simp only [stepState]
  by_cases hcf : c.id = fmtId
  · obtain ⟨f, hf⟩ := hfmt hcf
    simp [hcf, hf]
  · by_cases hcd : c.id = dataId
    · simp [hcf, hcd, dataId_ne_fmtId]
    · simp [hcf, hcd]

theorem parse_chunks_nil (pos : Nat) (st : ParserState) :
    parse_chunks [] pos st = (st, none) := by
  rw [parse_chunks]
  simp

theorem storeWF_insert (l : List (List Nat × WAVChunk)) (id : List Nat)
    (c : WAVChunk) (hwf : StoreWF l) (hc : ChunkWF id c) :
    StoreWF (insertChunk l id c) := by
  constructor
  · intro p hp
    rcases mem_insertChunk l id c p hp with h | h
    · rw [h]; exact hc
    · exact hwf.1 p h
  · exact insertChunk_keys_nodup l id c hwf.2

/-- Synchronisation invariant maintained by the chunk walk: the cached
audio_data aliases the "data" store entry, and format_info (duration
still 0 during the walk) is the decode of the "fmt " store entry. -/
def Synced (st : ParserState) : Prop :=
  st.audio_data = (lookupChunk st.chunks dataId).map (fun c => c.data) ∧
  ∀ f, st.format_info = some f →
    f.duration_seconds = 0 ∧
    ∃ cf, lookupChunk st.chunks fmtId = some cf ∧ parseFormatChunk cf.data = Except.ok f

theorem chunkOf_wf (bs : List Nat) (pos : Nat)
    (hb : ∀ b ∈ bs, b < 256)
    (h2 : ¬ ¬ ((chunkIdOf bs).all fun b => b < 128) = true)
    (h3 : ¬ (chunkIdOf bs).length ≠ 4)
    (h4 : ¬ (chunkDataOf bs).length ≠ chunkSizeOf bs) :
    ChunkWF (chunkIdOf bs) (chunkOf bs pos) := by
  refine ⟨rfl, not_ne_iff.mp h3, ?_, (not_ne_iff.mp h4).symm, ?_⟩
  · intro b hbmem
    have := not_not.mp h2
    rw [List.all_eq_true] at this
    simpa using this b hbmem
  · show chunkSizeOf bs < 4294967296
    rw [chunkSizeOf]
    exact unpackLE_lt_2_32 _
      (fun b hbm => hb b (((List.take_sublist _ _).trans (List.drop_sublist _ _)).subset hbm))
      (List.length_take_le _ _)

theorem parse_chunks_inv (bs : List Nat) (pos : Nat) (st : ParserState) :
    (∀ b ∈ bs, b < 256) → StoreWF st.chunks → Synced st →
    StoreWF (parse_chunks bs pos st).1.chunks ∧
    ((parse_chunks bs pos st).2 = none → Synced (parse_chunks bs pos st).1) := by
  induction bs, pos, st using parse_chunks.induct with
  | case1 bs pos st h =>
      intro hb hwf hs
      rw [parse_chunks, dif_pos h]
      exact ⟨hwf, fun _ => hs⟩
  | case2 bs pos st h1 h2 =>
      intro hb hwf hs
      rw [parse_chunks, dif_neg h1, if_pos h2]
      exact ⟨hwf, by simp⟩
  | case3 bs pos st h1 h2 h3 =>
      intro hb hwf hs
      rw [parse_chunks, dif_neg h1, if_neg h2, if_pos h3]
      exact ⟨hwf, by simp⟩
  | case4 bs pos st h1 h2 h3 h4 =>
      intro hb hwf hs
      rw [parse_chunks, dif_neg h1, if_neg h2, if_neg h3, if_pos h4]
      exact ⟨hwf, by simp⟩
  | case5 bs pos st h1 h2 h3 h4 h5 e he =>
      intro hb hwf hs
      rw [parse_chunks, dif_neg h1, if_neg h2, if_neg h3, if_neg h4, if_pos h5, he]
      exact ⟨storeWF_insert _ _ _ hwf (chunkOf_wf bs pos hb h2 h3 h4), by simp⟩
  | case6 bs pos st h1 h2 h3 h4 h5 f hf ih =>
      intro hb hwf hs
      rw [parse_chunks, dif_neg h1, if_neg h2, if_neg h3, if_neg h4, if_pos h5, hf]
      refine ih ?_ ?_ ?_
      · intro b hbm
        exact hb b ((List.drop_sublist _ _).subset hbm)
      · exact storeWF_insert _ _ _ hwf (chunkOf_wf bs pos hb h2 h3 h4)
      · constructor
        · show st.audio_data = _
          rw [lookup_insert_ne _ _ _ _ (h5 ▸ dataId_ne_fmtId)]
          exact hs.1
        · intro f' hf'
          simp only [Option.some.injEq] at hf'
          subst hf'
          refine ⟨parseFormatChunk_duration _ _ hf, ?_⟩
          refine ⟨chunkOf bs pos, ?_, by show parseFormatChunk (chunkDataOf bs) = _; rw [hf]⟩
          rw [← h5]
          exact lookup_insert_self _ _ _
  | case7 bs pos st h1 h2 h3 h4 h5 h6 ih =>
      intro hb hwf hs
      rw [parse_chunks, dif_neg h1, if_neg h2, if_neg h3, if_neg h4, if_neg h5, if_pos h6]
      refine ih ?_ ?_ ?_
      · intro b hbm
        exact hb b ((List.drop_sublist _ _).subset hbm)
      · exact storeWF_insert _ _ _ hwf (chunkOf_wf bs pos hb h2 h3 h4)
      · constructor
        · show some (chunkDataOf bs) = _
          rw [← h6, lookup_insert_self _ _ _]
          simp [chunkOf]
        · intro f' hf'
          obtain ⟨hd, cf, hcf, hpf⟩ := hs.2 f' hf'
          refine ⟨hd, cf, ?_, hpf⟩
          rw [← hcf]
          exact lookup_insert_ne _ _ _ _ (h6 ▸ fmtId_ne_dataId)
  | case8 bs pos st h1 h2 h3 h4 h5 h6 ih =>
      intro hb hwf hs
      rw [parse_chunks, dif_neg h1, if_neg h2, if_neg h3, if_neg h4, if_neg h5, if_neg h6]
      refine ih ?_ ?_ ?_
      · intro b hbm
        exact hb b ((List.drop_sublist _ _).subset hbm)
      · exact storeWF_insert _ _ _ hwf (chunkOf_wf bs pos hb h2 h3 h4)
      · constructor
        · show st.audio_data = _
          rw [lookup_insert_ne _ _ _ _ (fun hh => h6 hh.symm)]
          exact hs.1
        · intro f' hf'
          obtain ⟨hd, cf, hcf, hpf⟩ := hs.2 f' hf'
          refine ⟨hd, cf, ?_, hpf⟩
          rw [← hcf]
          exact lookup_insert_ne _ _ _ _ (fun hh => h5 hh.symm)

/-- Iterated walker steps: the state after walking a list of chunks. -/
def insertRun (st : ParserState) (pos : Nat) : List WAVChunk → ParserState
  | [] => st
  | c :: cs => insertRun (stepState st pos c) (pos + (8 + c.size + chunkPad c.size)) cs

theorem parse_chunks_serialized (cs : List WAVChunk) (pos : Nat) (st : ParserState)
    (h : ∀ c ∈ cs, ChunkWF c.id c ∧ (c.id = fmtId → ∃ f, parseFormatChunk c.data = Except.ok f)) :
    parse_chunks ((cs.map serialize_chunk).flatten) pos st = (insertRun st pos cs, none) := by
  induction cs generalizing pos st with
  | nil =>
      simpa using parse_chunks_nil pos st
  | cons c cs ih =>
      have hc := h c (by simp)
      rw [List.map_cons, List.flatten_cons, parse_chunks_cons c _ pos st hc.1 hc.2,
          insertRun]
      exact ih _ _ (fun c' hc' => h c' (by simp [hc']))

theorem stepState_chunks (st : ParserState) (pos : Nat) (c : WAVChunk) :
    (stepState st pos c).chunks = insertChunk st.chunks c.id { c with offset := pos + 8 } := by
  by_cases hcf : c.id = fmtId
  · rcases hp : parseFormatChunk c.data with e | f <;> simp [stepState, hcf, hp]
  · by_cases hcd : c.id = dataId <;> simp [stepState, hcf, hcd, dataId_ne_fmtId]

theorem stepState_format_other (st : ParserState) (pos : Nat) (c : WAVChunk)
    (h : c.id ≠ fmtId) : (stepState st pos c).format_info = st.format_info := by
  by_cases hcd : c.id = dataId <;> simp [stepState, h, hcd, dataId_ne_fmtId]

theorem stepState_audio_other (st : ParserState) (pos : Nat) (c : WAVChunk)
    (h : c.id ≠ dataId) : (stepState st pos c).audio_data = st.audio_data := by
  by_cases hcf : c.id = fmtId
  · rcases hp : parseFormatChunk c.data with e | f <;> simp [stepState, hcf, hp]
  · simp [stepState, hcf, h]

theorem insertRun_format (cs : List WAVChunk) (pos : Nat) (st : ParserState)
    (h : ∀ c ∈ cs, c.id ≠ fmtId) :
    (insertRun st pos cs).format_info = st.format_info := by
  induction cs generalizing pos st with
  | nil => rfl
  | cons c cs ih =>
      rw [insertRun, ih _ _ (fun c' hc' => h c' (by simp [hc'])),
          stepState_format_other _ _ _ (h c (by simp))]

theorem insertRun_audio (cs : List WAVChunk) (pos : Nat) (st : ParserState)
    (h : ∀ c ∈ cs, c.id ≠ dataId) :
    (insertRun st pos cs).audio_data = st.audio_data := by
  induction cs generalizing pos st with
  | nil => rfl
  | cons c cs ih =>
      rw [insertRun, ih _ _ (fun c' hc' => h c' (by simp [hc'])),
          stepState_audio_other _ _ _ (h c (by simp))]

theorem insertRun_lookup_not_mem (cs : List WAVChunk) (pos : Nat) (st : ParserState)
    (id : List Nat) (h : ∀ c ∈ cs, c.id ≠ id) :
    lookupChunk (insertRun st pos cs).chunks id = lookupChunk st.chunks id := by
  induction cs generalizing pos st with
  | nil => rfl
  | cons c cs ih =>
      rw [insertRun, ih _ _ (fun c' hc' => h c' (by simp [hc'])), stepState_chunks,
          lookup_insert_ne _ _ _ _ (fun hh => h c (by simp) hh.symm)]

theorem insertRun_lookup_mem (cs : List WAVChunk) (pos : Nat) (st : ParserState)
    (c : WAVChunk) :
    c ∈ cs → (cs.map WAVChunk.id).Nodup →
    ∃ off, lookupChunk (insertRun st pos cs).chunks c.id = some { c with offset := off } := by
  induction cs generalizing pos st with
  | nil => intro hc _; simp at hc
  | cons c' cs ih =>
      intro hc hnd
      rcases List.mem_cons.mp hc with rfl | hmem
      · have hrest : ∀ d ∈ cs, d.id ≠ c.id := by
          intro d hd hdc
          have : c.id ∈ cs.map WAVChunk.id := by
            exact List.mem_map.mpr ⟨d, hd, hdc⟩
          exact (List.nodup_cons.mp hnd).1 this
        refine ⟨pos + 8, ?_⟩
        rw [insertRun, insertRun_lookup_not_mem _ _ _ _ hrest, stepState_chunks,
            lookup_insert_self]
      · exact ih _ _ hmem (List.nodup_cons.mp hnd).2

theorem lookup_insert_isSome (l : List (List Nat × WAVChunk)) (k : List Nat)
    (c : WAVChunk) (id : List Nat) :
    (lookupChunk (insertChunk l k c) id).isSome ↔ id = k ∨ (lookupChunk l id).isSome := by
  by_cases h : id = k
  · subst h; simp [lookup_insert_self]
  · rw [lookup_insert_ne _ _ _ _ h]; simp [h]

theorem insertRun_lookup_isSome (cs : List WAVChunk) (pos : Nat) (st : ParserState)
    (id : List Nat) :
    (lookupChunk (insertRun st pos cs).chunks id).isSome ↔
      (∃ c ∈ cs, c.id = id) ∨ (lookupChunk st.chunks id).isSome := by
  induction cs generalizing pos st with
  | nil => simp [insertRun]
  | cons c cs ih =>
      rw [insertRun, ih]
      rw [stepState_chunks, lookup_insert_isSome]
      constructor
      · rintro (⟨d, hd, hdid⟩ | h)
        · exact Or.inl ⟨d, by simp [hd], hdid⟩
        · rcases h with h | h
          · exact Or.inl ⟨c, by simp, h.symm⟩
          · exact Or.inr h
      · rintro (⟨d, hd, hdid⟩ | h)
        · rcases List.mem_cons.mp hd with rfl | hmem
          · exact Or.inr (Or.inl hdid.symm)
          · exact Or.inl ⟨d, hmem, hdid⟩
        · exact Or.inr (Or.inr h)

theorem lookup_of_mem_nodup (l : List (List Nat × WAVChunk)) (k : List Nat)
    (c : WAVChunk) (hnd : (l.map Prod.fst).Nodup) (h : (k, c) ∈ l) :
    lookupChunk l k = some c := by
  induction l with
  | nil => simp at h
  | cons p rest ih =>
      obtain ⟨k', v⟩ := p
      rcases List.mem_cons.mp h with heq | hmem
      · injection heq with h1 h2
        subst h1; subst h2
        simp [lookupChunk]
      · by_cases hk : k' = k
        · exfalso
          subst hk
          have : k' ∈ rest.map Prod.fst := List.mem_map.mpr ⟨(k', c), hmem, rfl⟩
          exact (List.nodup_cons.mp hnd).1 this
        · simp only [lookupChunk, if_neg hk]
          exact ih (List.nodup_cons.mp hnd).2 hmem

theorem keyLe_total (a b : List Nat) : keyLe a b = true ∨ keyLe b a = true := by
  induction a generalizing b with
  | nil => left; rfl
  | cons x xs ih =>
      cases b with
      | nil => right; rfl
      | cons y ys =>
          by_cases h1 : x < y
          · left; simp [keyLe, h1]
          · by_cases h2 : y < x
            · right; simp [keyLe, h2]
            · have hxy : x = y := by omega
              subst hxy
              rcases ih ys with h | h
              · left; simpa [keyLe] using h
              · right; simpa [keyLe] using h

theorem keyLe_trans (a b c : List Nat) (hab : keyLe a b = true)
    (hbc : keyLe b c = true) : keyLe a c = true := by
  induction a generalizing b c with
  | nil => rfl
  | cons x xs ih =>
      cases b with
      | nil => simp [keyLe] at hab
      | cons y ys =>
          cases c with
          | nil => simp [keyLe] at hbc
          | cons z zs =>
              simp only [keyLe] at hab hbc ⊢
              by_cases h1 : x < y
              · by_cases h2 : y < z
                · simp [show x < z by omega]
                · by_cases h3 : z < y
                  · simp [h2, h3] at hbc
                  · have : y = z := by omega
                    subst this
                    simp [h1]
              · by_cases h4 : y < x
                · simp [h1, h4] at hab
                · have : x = y := by omega
                  subst this
                  by_cases h2 : x < z
                  · simp [h2]
                  · by_cases h3 : z < x
                    · simp [h2, h3] at hbc
                    · have : x = z := by omega
                      subst this
                      simp only [lt_irrefl, if_false] at hab hbc ⊢
                      exact ih ys zs (by simpa using hab) (by simpa using hbc)

theorem insertSorted_perm (k : List Nat) (l : List (List Nat)) :
    (insertSorted k l).Perm (k :: l) := by
  induction l with
  | nil => exact List.Perm.refl _
  | cons x xs ih =>
      rw [insertSorted]
      split
      · exact List.Perm.refl _
      · exact (ih.cons x).trans (List.Perm.swap k x xs)

theorem sortKeys_perm (l : List (List Nat)) : (sortKeys l).Perm l := by
  induction l with
  | nil => exact List.Perm.refl _
  | cons x xs ih =>
      rw [sortKeys]
      exact (insertSorted_perm x (sortKeys xs)).trans (ih.cons x)

theorem mem_insertSorted (a k : List Nat) (l : List (List Nat)) :
    a ∈ insertSorted k l ↔ a = k ∨ a ∈ l := by
  rw [(insertSorted_perm k l).mem_iff]
  simp

theorem insertSorted_sorted (k : List Nat) (l : List (List Nat))
    (h : l.Pairwise (fun a b => keyLe a b = true)) :
    (insertSorted k l).Pairwise (fun a b => keyLe a b = true) := by
  induction l with
  | nil => simp [insertSorted]
  | cons x xs ih =>
      rw [insertSorted]
      obtain ⟨hx, hxs⟩ := List.pairwise_cons.mp h
      split
      · next hkx =>
          refine List.pairwise_cons.mpr ⟨?_, h⟩
          intro b hb
          rcases List.mem_cons.mp hb with rfl | hbmem
          · exact hkx
          · exact keyLe_trans _ _ _ hkx (hx b hbmem)
      · next hkx =>
          have hxk : keyLe x k = true :=
            (keyLe_total k x).resolve_left (by simpa using hkx)
          refine List.pairwise_cons.mpr ⟨?_, ih hxs⟩
          intro b hb
          rcases (mem_insertSorted b k xs).mp hb with rfl | hbmem
          · exact hxk
          · exact hx b hbmem

theorem sortKeys_sorted (l : List (List Nat)) :
    (sortKeys l).Pairwise (fun a b => keyLe a b = true) := by
  induction l with
  | nil => simp [sortKeys]
  | cons x xs ih => exact insertSorted_sorted x (sortKeys xs) ih

theorem calculate_duration_chunks (s : ParserState) :
    (calculate_duration s).chunks = s.chunks := by
  obtain ⟨fi, ch, ad⟩ := s
  cases ad <;> cases fi <;> simp [calculate_duration] <;> split <;> rfl

theorem calculate_duration_audio (s : ParserState) :
    (calculate_duration s).audio_data = s.audio_data := by
  obtain ⟨fi, ch, ad⟩ := s
  cases ad <;> cases fi <;> simp [calculate_duration] <;> split <;> rfl

theorem calculate_duration_format (s : ParserState) (f : WAVFormat)
    (hf : s.format_info = some f) :
    ∃ q, (calculate_duration s).format_info = some { f with duration_seconds := q } := by
  obtain ⟨fi, ch, ad⟩ := s
  simp only at hf
  subst hf
  cases ad with
  | none => exact ⟨f.duration_seconds, rfl⟩
  | some a =>
      by_cases h : a ≠ [] ∧ 0 < f.byte_rate
      · exact ⟨(a.length : Rat) / (f.byte_rate : Rat), by simp [calculate_duration, h]⟩
      · exact ⟨f.duration_seconds, by simp [calculate_duration, h]⟩

theorem validate_ok_elim (s : ParserState) (h : validate_format s = Except.ok ()) :
    ∃ f, s.format_info = some f ∧ f.audio_format = 1 ∧ f.channels ≠ 0 ∧
      f.sample_rate ≠ 0 ∧ s.audio_data ≠ none := by
  obtain ⟨fi, ch, ad⟩ := s
  cases fi with
  | none => simp [validate_format] at h
  | some f =>
      simp only [validate_format] at h
      split_ifs at h with u1 u2 u3 u4 <;> try simp at h
      refine ⟨f, rfl, ?_, u2, u3, u4⟩
      simpa [WAVFormat.is_pcm] using u1

theorem parse_ok_elim (bs : List Nat) (st : ParserState) (info : WAVInfo)
    (h : parse bs = (st, Except.ok info)) :
    ∃ st1, parse_chunks (bs.drop 12) 12 initState = (st1, none) ∧
      st = calculate_duration st1 ∧
      validate_format st = Except.ok () ∧
      get_info st = Except.ok info := by
  rw [parse] at h
  split_ifs at h with h1 h2 h3
  · simp at h
  · simp at h
  · simp at h
  · split at h
    · simp at h
    · next st1 heq =>
        split at h
        · simp at h
        · next u hv =>
            obtain ⟨hst, hinfo⟩ := Prod.mk.injEq .. ▸ h
            refine ⟨st1, heq, hst.symm, ?_, ?_⟩
            · rw [← hst]; cases u; exact hv
            · rw [← hst]; exact hinfo

/-- The six decoded format fields, without the derived duration. -/
def formatFields (f : WAVFormat) : Nat × Nat × Nat × Nat × Nat × Nat :=
  (f.audio_format, f.channels, f.sample_rate, f.byte_rate, f.block_align, f.bits_per_sample)

theorem wavformat_eta (f : WAVFormat) (h : f.duration_seconds = 0) :
    { f with duration_seconds := 0 } = f := by
  cases f
  simp only at h
  simp [h]

theorem parse_ok_state (bs : List Nat) (st : ParserState) (info : WAVInfo)
    (hb : ∀ b ∈ bs, b < 256) (h : parse bs = (st, Except.ok info)) :
    StoreWF st.chunks ∧
    (∃ cd, lookupChunk st.chunks dataId = some cd ∧ st.audio_data = some cd.data) ∧
    (∃ f cf, st.format_info = some f ∧ lookupChunk st.chunks fmtId = some cf ∧
       parseFormatChunk cf.data = Except.ok { f with duration_seconds := 0 } ∧
       f.audio_format = 1 ∧ f.channels ≠ 0 ∧ f.sample_rate ≠ 0) ∧
    get_info st = Except.ok info := by
  obtain ⟨st1, hpc, hst, hval, hinfo⟩ := parse_ok_elim bs st info h
  have hbd : ∀ b ∈ bs.drop 12, b < 256 :=
    fun b hbm => hb b ((List.drop_sublist _ _).subset hbm)
  have hinit_wf : StoreWF initState.chunks := ⟨by simp [initState], by simp [initState]⟩
  have hinit_sync : Synced initState := ⟨by simp [initState, lookupChunk], by simp [initState]⟩
  obtain ⟨hwf1, hsync1'⟩ := parse_chunks_inv (bs.drop 12) 12 initState hbd hinit_wf hinit_sync
  rw [hpc] at hwf1 hsync1'
  have hwf : StoreWF st1.chunks := hwf1
  have hsync : Synced st1 := hsync1' rfl
  obtain ⟨f, hf, hpcm, hch, hsr, had⟩ := validate_ok_elim st hval
  have hchunks : st.chunks = st1.chunks := by rw [hst, calculate_duration_chunks]
  have haudio : st.audio_data = st1.audio_data := by rw [hst, calculate_duration_audio]
  refine ⟨hchunks ▸ hwf, ?_, ?_, hinfo⟩
  · rcases hcd : lookupChunk st1.chunks dataId with _ | cd
    · exfalso
      apply had
      simp [haudio, hsync.1, hcd]
    · exact ⟨cd, by rw [hchunks, hcd], by simp [haudio, hsync.1, hcd]⟩
  · rcases hf1 : st1.format_info with _ | f1
    · exfalso
      rw [hst] at hf
      obtain ⟨fi1, ch1, ad1⟩ := st1
      simp only at hf1
      subst hf1
      cases ad1 <;> simp [calculate_duration] at hf
    · obtain ⟨hdur0, cf, hcf, hdec⟩ := hsync.2 f1 hf1
      obtain ⟨q, hq⟩ := calculate_duration_format st1 f1 hf1
      rw [← hst] at hq
      rw [hf] at hq
      have hff1 : f = { f1 with duration_seconds := q } :=
        Option.some_injective _ hq
      have hfd : ({ f with duration_seconds := 0 } : WAVFormat) = f1 := by
        rw [hff1]
        exact wavformat_eta f1 hdur0
      exact ⟨f, cf, hf, by rw [hchunks]; exact hcf, by rw [hfd]; exact hdec, hpcm, hch, hsr⟩

/-- After a successful parse the duration invariant holds exactly:
duration is audio length over byte rate when the rate is positive,
else 0. -/
def DurationInv (s : ParserState) : Prop :=
  ∀ f, s.format_info = some f →
    f.duration_seconds =
      if 0 < f.byte_rate then ((s.audio_data.getD []).length : Rat) / (f.byte_rate : Rat)
      else 0

theorem parse_ok_duration (bs : List Nat) (st : ParserState) (info : WAVInfo)
    (hb : ∀ b ∈ bs, b < 256) (h : parse bs = (st, Except.ok info)) : DurationInv st := by
  obtain ⟨st1, hpc, hst, hval, hinfo⟩ := parse_ok_elim bs st info h
  have hbd : ∀ b ∈ bs.drop 12, b < 256 :=
    fun b hbm => hb b ((List.drop_sublist _ _).subset hbm)
  have hinit_wf : StoreWF initState.chunks := ⟨by simp [initState], by simp [initState]⟩
  have hinit_sync : Synced initState := ⟨by simp [initState, lookupChunk], by simp [initState]⟩
  obtain ⟨hwf1, hsync1'⟩ := parse_chunks_inv (bs.drop 12) 12 initState hbd hinit_wf hinit_sync
  rw [hpc] at hsync1'
  have hsync : Synced st1 := hsync1' rfl
  obtain ⟨fv, hfv, _, _, _, had⟩ := validate_ok_elim st hval
  intro f hf
  rcases hf1 : st1.format_info with _ | f1
  · exfalso
    rw [hst] at hf
    obtain ⟨fi1, ch1, ad1⟩ := st1
    simp only at hf1
    subst hf1
    cases ad1 <;> simp [calculate_duration] at hf
  · have hdur0 := (hsync.2 f1 hf1).1
    rcases ha1 : st1.audio_data with _ | ad
    · exfalso
      apply had
      rw [hst, calculate_duration_audio, ha1]
    · have haudio : st.audio_data = some ad := by rw [hst, calculate_duration_audio, ha1]
      obtain ⟨fi1, ch1, ad1⟩ := st1
      simp only at hf1 ha1
      subst hf1
      subst ha1
      by_cases hcond : ad ≠ [] ∧ 0 < f1.byte_rate
      · rw [hst] at hf
        simp only [calculate_duration, if_pos hcond] at hf
        injection hf with hf'
        rw [← hf']
        simp [haudio, hcond.2]
      · rw [hst] at hf
        simp only [calculate_duration, if_neg hcond] at hf
        injection hf with hf'
        subst hf'
        rcases Decidable.not_and_iff_or_not.mp hcond with hempty | hrate
        · have : ad = [] := not_not.mp hempty
          subst this
          rw [hdur0, haudio]
          simp
        · rw [hdur0]
          simp [hrate]

theorem foldl_write_sum (st : ParserState) (l : List (List Nat)) (n : Nat) :
    l.foldl (fun acc k => acc + 8 + (chunkAtKey st k).size + chunkPad (chunkAtKey st k).size) n =
      n + (l.map (fun k => 8 + (chunkAtKey st k).size + chunkPad (chunkAtKey st k).size)).sum := by
  induction l generalizing n with
  | nil => simp
  | cons x xs ih =>
      rw [List.foldl_cons, ih, List.map_cons, List.sum_cons]
      omega

theorem foldl_riff_sum (l : List (List Nat × WAVChunk)) (n : Nat) :
    l.foldl (fun acc p => acc + 8 + p.2.size + chunkPad p.2.size) n =
      n + (l.map (fun p => 8 + p.2.size + chunkPad p.2.size)).sum := by
  induction l generalizing n with
  | nil => simp
  | cons x xs ih =>
      rw [List.foldl_cons, ih, List.map_cons, List.sum_cons]
      omega

theorem riffSizeOf_eq (st : ParserState) :
    riffSizeOf st = 4 + (st.chunks.map (fun p => 8 + p.2.size + chunkPad p.2.size)).sum := by
  rw [riffSizeOf, foldl_riff_sum]

theorem write_wav_ok (st : ParserState) (f : WAVFormat) (hf : st.format_info = some f)
    (cf cd : WAVChunk) (hcf : lookupChunk st.chunks fmtId = some cf)
    (hcd : lookupChunk st.chunks dataId = some cd) :
    write_wav st = Except.ok (writeBytes st, writeCount st) := by
  simp [write_wav, hf, hcf, hcd]

theorem mem_otherKeys (st : ParserState) (k : List Nat) :
    k ∈ otherKeys st ↔ k ∈ st.chunks.map Prod.fst ∧ ¬ (k = fmtId ∨ k = dataId) := by
  rw [otherKeys, List.mem_filter, (sortKeys_perm _).mem_iff]
  simp

theorem otherKeys_nodup (st : ParserState) (h : (st.chunks.map Prod.fst).Nodup) :
    (otherKeys st).Nodup :=
  (((sortKeys_perm _).nodup_iff).mpr h).filter _

theorem otherKeys_sorted (st : ParserState) :
    (otherKeys st).Pairwise (fun a b => keyLe a b = true) :=
  (sortKeys_sorted _).sublist (List.filter_sublist _)

theorem fmtId_not_mem_otherKeys (st : ParserState) : fmtId ∉ otherKeys st := by
  intro h
  exact ((mem_otherKeys st fmtId).mp h).2 (Or.inl rfl)

theorem dataId_not_mem_otherKeys (st : ParserState) : dataId ∉ otherKeys st := by
  intro h
  exact ((mem_otherKeys st dataId).mp h).2 (Or.inr rfl)

theorem writeOrder_nodup (st : ParserState) (hnd : (st.chunks.map Prod.fst).Nodup) :
    (writeOrder st).Nodup := by
  rw [writeOrder, List.nodup_cons, List.nodup_cons]
  refine ⟨?_, dataId_not_mem_otherKeys st, otherKeys_nodup st hnd⟩
  simp [fmtId_ne_dataId, fmtId_not_mem_otherKeys st]

theorem writeOrder_perm (st : ParserState) (hnd : (st.chunks.map Prod.fst).Nodup)
    (hfmt : fmtId ∈ st.chunks.map Prod.fst) (hdata : dataId ∈ st.chunks.map Prod.fst) :
    (writeOrder st).Perm (st.chunks.map Prod.fst) := by
  rw [List.perm_ext_iff_of_nodup (writeOrder_nodup st hnd) hnd]
  intro k
  rw [writeOrder, List.mem_cons, List.mem_cons, mem_otherKeys]
  constructor
  · rintro (rfl | rfl | ⟨hk, _⟩)
    · exact hfmt
    · exact hdata
    · exact hk
  · intro hk
    by_cases hkf : k = fmtId
    · exact Or.inl hkf
    · by_cases hkd : k = dataId
      · exact Or.inr (Or.inl hkd)
      · exact Or.inr (Or.inr ⟨hk, by simp [hkf, hkd]⟩)

theorem writeCount_eq (st : ParserState) (hnd : (st.chunks.map Prod.fst).Nodup)
    (hfmt : fmtId ∈ st.chunks.map Prod.fst) (hdata : dataId ∈ st.chunks.map Prod.fst) :
    writeCount st = 12 + (st.chunks.map (fun p => 8 + p.2.size + chunkPad p.2.size)).sum := by
  rw [writeCount, foldl_write_sum]
  congr 1
  have hperm := (writeOrder_perm st hnd hfmt hdata).map
    (fun k => 8 + (chunkAtKey st k).size + chunkPad (chunkAtKey st k).size)
  rw [hperm.sum_eq, List.map_map]
  apply congrArg
  apply List.map_congr_left
  intro p hp
  have : chunkAtKey st p.1 = p.2 := by
    rw [chunkAtKey, lookup_of_mem_nodup st.chunks p.1 p.2 hnd (by simpa using hp)]
    rfl
  simp [this]

theorem parse_riff_wave (R : Nat) (body : List Nat) :
    parse (riffTag ++ (pack4 R ++ (waveTag ++ body))) =
      (match parse_chunks body 12 initState with
       | (st1, some e) => (st1, Except.error e)
       | (st1, none) =>
           match validate_format (calculate_duration st1) with
           | .error e => (calculate_duration st1, Except.error e)
           | .ok _ => (calculate_duration st1, get_info (calculate_duration st1))) := by
  have hr4 : riffTag.length = 4 := rfl
  have hp4 : (pack4 R).length = 4 := pack4_length R
  have h8 : (riffTag ++ pack4 R).length = 8 := by rw [List.length_append, hr4, hp4]
  have h12 : ((riffTag ++ pack4 R) ++ waveTag).length = 12 := by
    rw [List.length_append, h8]; rfl
  have hassoc : riffTag ++ (pack4 R ++ (waveTag ++ body)) =
      ((riffTag ++ pack4 R) ++ waveTag) ++ body := by
    simp [List.append_assoc]
  have hlen : ¬ (riffTag ++ (pack4 R ++ (waveTag ++ body))).length < 12 := by
    rw [hassoc, List.length_append, h12]
    omega
  have htake : (riffTag ++ (pack4 R ++ (waveTag ++ body))).take 4 = riffTag :=
    List.take_left' hr4
  have hdrop8 : ((riffTag ++ (pack4 R ++ (waveTag ++ body))).drop 8).take 4 = waveTag := by
    rw [hassoc, List.append_assoc, List.drop_left' h8]
    exact List.take_left' rfl
  have hdrop12 : (riffTag ++ (pack4 R ++ (waveTag ++ body))).drop 12 = body := by
    rw [hassoc, List.drop_left' h12]
  rw [parse, if_neg hlen, if_neg (not_ne_iff.mpr htake), if_neg (not_ne_iff.mpr hdrop8),
      hdrop12]

theorem calculate_sample_count_some (s : ParserState) (ad : List Nat) (f : WAVFormat)
    (ha : s.audio_data = some ad) (hf : s.format_info = some f) :
    calculate_sample_count s =
      if ad = [] then Except.ok 0
      else if (f.bits_per_sample / 8) * f.channels = 0 then Except.error .zeroDivisionError
      else Except.ok (ad.length / ((f.bits_per_sample / 8) * f.channels)) := by
  obtain ⟨fi, ch, ad'⟩ := s
  simp only at ha hf
  subst ha
  subst hf
  rfl

theorem get_info_ok_elim (s : ParserState) (f : WAVFormat) (info : WAVInfo)
    (hf : s.format_info = some f) (h : get_info s = Except.ok info) :
    calculate_sample_count s = Except.ok info.sample_count ∧
    info.bits_per_sample = f.bits_per_sample ∧ info.channels = f.channels ∧
    info.audio_data_size = (s.audio_data.getD []).length := by
  rw [get_info, hf] at h
  rcases hsc : calculate_sample_count s with e | sc
  · rw [hsc] at h; simp at h
  · rw [hsc] at h
    have h' := Except.ok.inj h
    subst h'
    exact ⟨rfl, rfl, rfl, rfl⟩

theorem validate_format_some (s : ParserState) (f : WAVFormat)
    (hf : s.format_info = some f) :
    validate_format s =
      (if ¬ f.is_pcm then
        Except.error (.invalidFormat "Unsupported audio format (only PCM is supported)")
      else if f.channels = 0 then
        Except.error (.invalidFormat "Invalid number of channels")
      else if f.sample_rate = 0 then
        Except.error (.invalidFormat "Invalid sample rate")
      else if s.audio_data = none then
        Except.error (.invalidFormat "No audio data found")
      else
        Except.ok ()) := by
  obtain ⟨fi, ch, ad⟩ := s
  simp only at hf
  subst hf
  rfl

theorem get_info_some (s : ParserState) (f : WAVFormat) (hf : s.format_info = some f) :
    get_info s =
      (match calculate_sample_count s with
       | .error e => Except.error e
       | .ok sc =>
           Except.ok ⟨f.audio_format, f.channels, f.sample_rate, f.byte_rate,
             f.block_align, f.bits_per_sample, f.is_pcm, f.duration_seconds,
             (s.audio_data.getD []).length, sc,
             s.chunks.map (fun p => (p.1, p.2.size))⟩) := by
  obtain ⟨fi, ch, ad⟩ := s
  simp only at hf
  subst hf
  rfl

theorem stepState_format_fmt (st : ParserState) (pos : Nat) (c : WAVChunk)
    (hc : c.id = fmtId) (f0 : WAVFormat) (hf0 : parseFormatChunk c.data = Except.ok f0) :
    (stepState st pos c).format_info = some f0 := by
  simp [stepState, hc, hf0]

theorem stepState_audio_data (st : ParserState) (pos : Nat) (c : WAVChunk)
    (hc : c.id = dataId) : (stepState st pos c).audio_data = some c.data := by
  simp [stepState, hc, dataId_ne_fmtId]

theorem lookupChunk_nil (id : List Nat) : lookupChunk [] id = none := rfl

theorem reparse_writeBytes (st : ParserState) (f : WAVFormat) (cf cd : WAVChunk)
    (hwf : StoreWF st.chunks)
    (hf : st.format_info = some f)
    (hcf : lookupChunk st.chunks fmtId = some cf)
    (hcd : lookupChunk st.chunks dataId = some cd)
    (haud : st.audio_data = some cd.data)
    (hdec : parseFormatChunk cf.data = Except.ok { f with duration_seconds := 0 })
    (hpcm : f.audio_format = 1) (hch : f.channels ≠ 0) (hsr : f.sample_rate ≠ 0)
    (hsc : ∃ n, calculate_sample_count st = Except.ok n) :
    ∃ st' info', parse (writeBytes st) = (st', Except.ok info') ∧
      st'.audio_data = some cd.data ∧
      (∀ id, (lookupChunk st'.chunks id).isSome ↔ (lookupChunk st.chunks id).isSome) ∧
      (∀ id c c', lookupChunk st.chunks id = some c →
        lookupChunk st'.chunks id = some c' → c'.data = c.data) ∧
      st'.format_info.map formatFields = some (formatFields f) := by
  have hndk : (st.chunks.map Prod.fst).Nodup := hwf.2
  have hcfwf : ChunkWF fmtId cf := lookup_wf _ _ _ hwf.1 hcf
  have hcdwf : ChunkWF dataId cd := lookup_wf _ _ _ hwf.1 hcd
  have hatf : chunkAtKey st fmtId = cf := by rw [chunkAtKey, hcf]; rfl
  have hatd : chunkAtKey st dataId = cd := by rw [chunkAtKey, hcd]; rfl
  have hok : ∀ k ∈ otherKeys st,
      lookupChunk st.chunks k = some (chunkAtKey st k) ∧
      ChunkWF k (chunkAtKey st k) := by
    intro k hk
    have hkmem : k ∈ st.chunks.map Prod.fst := ((mem_otherKeys st k).mp hk).1
    obtain ⟨c, hc⟩ := Option.isSome_iff_exists.mp ((lookup_isSome_iff_mem _ _).mpr hkmem)
    have : chunkAtKey st k = c := by rw [chunkAtKey, hc]; rfl
    rw [this]
    exact ⟨hc, lookup_wf _ _ _ hwf.1 hc⟩
  have hcs : (writeOrder st).map (chunkAtKey st) =
      cf :: cd :: (otherKeys st).map (chunkAtKey st) := by
    rw [writeOrder, List.map_cons, List.map_cons, hatf, hatd]
  have hrestid : ∀ c ∈ (otherKeys st).map (chunkAtKey st), c.id ∈ otherKeys st ∧
      c.id ≠ fmtId ∧ c.id ≠ dataId := by
    intro c hc
    obtain ⟨k, hk, hck⟩ := List.mem_map.mp hc
    obtain ⟨_, hkwf⟩ := hok k hk
    have hid : c.id = k := by rw [← hck]; exact hkwf.1
    rw [hid]
    have := ((mem_otherKeys st k).mp hk).2
    exact ⟨hk, fun hh => this (Or.inl hh), fun hh => this (Or.inr hh)⟩
  have hcond : ∀ c ∈ (writeOrder st).map (chunkAtKey st),
      ChunkWF c.id c ∧ (c.id = fmtId → ∃ f0, parseFormatChunk c.data = Except.ok f0) := by
    rw [hcs]
    intro c hc
    rcases List.mem_cons.mp hc with rfl | hc2
    · exact ⟨hcfwf.1 ▸ hcfwf, fun _ => ⟨_, hdec⟩⟩
    · rcases List.mem_cons.mp hc2 with rfl | hc3
      · refine ⟨hcdwf.1 ▸ hcdwf, fun hh => absurd (hcdwf.1 ▸ hh) dataId_ne_fmtId⟩
      · obtain ⟨k, hk, hck⟩ := List.mem_map.mp hc3
        obtain ⟨_, hkwf⟩ := hok k hk
        have hid : c.id = k := by rw [← hck]; exact hkwf.1
        refine ⟨?_, fun hh => absurd ((hrestid c hc3).2.1) (by simp [hh])⟩
        rw [hid, ← hck]
        exact hkwf
  have hbody := parse_chunks_serialized ((writeOrder st).map (chunkAtKey st)) 12 initState hcond
  have hwb : writeBytes st = riffTag ++ (pack4 (riffSizeOf st) ++ (waveTag ++
      ((((writeOrder st).map (chunkAtKey st)).map serialize_chunk).flatten))) := by
    rw [writeBytes, List.map_map]
    simp only [List.append_assoc]
    rfl
  -- the state after the chunk walk of the written body
  have hrestnd : (((otherKeys st).map (chunkAtKey st)).map WAVChunk.id).Nodup := by
    have : ((otherKeys st).map (chunkAtKey st)).map WAVChunk.id = otherKeys st := by
      rw [List.map_map]
      conv_rhs => rw [← List.map_id (otherKeys st)]
      apply List.map_congr_left
      intro k hk
      simpa using (hok k hk).2.1
    rw [this]
    exact otherKeys_nodup st hndk
  have hrest_ne_fmt : ∀ c ∈ (otherKeys st).map (chunkAtKey st), c.id ≠ fmtId :=
    fun c hc => (hrestid c hc).2.1
  have hrest_ne_data : ∀ c ∈ (otherKeys st).map (chunkAtKey st), c.id ≠ dataId :=
    fun c hc => (hrestid c hc).2.2
  rw [hcs, insertRun, insertRun] at hbody
  set pos1 := 12 + (8 + cf.size + chunkPad cf.size) with hpos1
  set pos2 := pos1 + (8 + cd.size + chunkPad cd.size) with hpos2
  set A1 := stepState initState 12 cf with hA1
  set A2 := stepState A1 pos1 cd with hA2
  set ST := insertRun A2 pos2 ((otherKeys st).map (chunkAtKey st)) with hST
  -- projections of the walked state
  have hST_format : ST.format_info = some ({ f with duration_seconds := 0 }) := by
    rw [hST, insertRun_format _ _ _ hrest_ne_fmt, hA2,
        stepState_format_other _ _ _ (hcdwf.1 ▸ dataId_ne_fmtId), hA1,
        stepState_format_fmt _ _ _ hcfwf.1 _ hdec]
  have hST_audio : ST.audio_data = some cd.data := by
    rw [hST, insertRun_audio _ _ _ hrest_ne_data, hA2, stepState_audio_data _ _ _ hcdwf.1]
  have hlkf : lookupChunk ST.chunks fmtId = some { cf with offset := 20 } := by
    rw [hST, insertRun_lookup_not_mem _ _ _ _ hrest_ne_fmt, hA2, stepState_chunks,
        hcdwf.1, lookup_insert_ne _ _ _ _ fmtId_ne_dataId, hA1, stepState_chunks,
        hcfwf.1, lookup_insert_self]
  have hlkd : lookupChunk ST.chunks dataId = some { cd with offset := pos1 + 8 } := by
    rw [hST, insertRun_lookup_not_mem _ _ _ _ hrest_ne_data, hA2, stepState_chunks,
        hcdwf.1, lookup_insert_self]
  have hlko : ∀ k ∈ otherKeys st, ∃ off,
      lookupChunk ST.chunks k =
        some ⟨k, (chunkAtKey st k).size, (chunkAtKey st k).data, off⟩ := by
    intro k hk
    have hmem : chunkAtKey st k ∈ (otherKeys st).map (chunkAtKey st) :=
      List.mem_map.mpr ⟨k, hk, rfl⟩
    obtain ⟨off, hoff⟩ := insertRun_lookup_mem _ pos2 A2 _ hmem hrestnd
    refine ⟨off, ?_⟩
    rw [hST]
    rw [(hok k hk).2.1] at hoff
    exact hoff
  have hlk_isSome : ∀ id, (lookupChunk ST.chunks id).isSome ↔
      (id = fmtId ∨ id = dataId ∨ id ∈ otherKeys st) := by
    intro id
    rw [hST, insertRun_lookup_isSome]
    rw [hA2, stepState_chunks, hcdwf.1, lookup_insert_isSome, hA1, stepState_chunks,
        hcfwf.1, lookup_insert_isSome]
    constructor
    · rintro (⟨c, hc, hcid⟩ | hid | hid | hsome)
      · right; right
        rw [← hcid]
        exact (hrestid c hc).1
      · right; left; exact hid
      · left; exact hid
      · rw [initState] at hsome
        simp [lookupChunk_nil] at hsome
    · rintro (rfl | rfl | hmem)
      · exact Or.inr (Or.inr (Or.inl rfl))
      · exact Or.inr (Or.inl rfl)
      · left
        refine ⟨chunkAtKey st id, List.mem_map.mpr ⟨id, hmem, rfl⟩, (hok id hmem).2.1⟩
  -- validation and summary succeed on the re-parsed state
  obtain ⟨q, hq⟩ := calculate_duration_format ST _ hST_format
  have hf0fields : ∀ r : Rat,
      formatFields { f with duration_seconds := r } = formatFields f := fun _ => rfl
  have hpcmq : ¬ ¬ (({ f with duration_seconds := q } : WAVFormat).is_pcm = true) := by
    simp [WAVFormat.is_pcm, hpcm]
  have hchq : ¬ (({ f with duration_seconds := q } : WAVFormat).channels = 0) := hch
  have hsrq : ¬ (({ f with duration_seconds := q } : WAVFormat).sample_rate = 0) := hsr
  have hadq : ¬ ((calculate_duration ST).audio_data = none) := by
    rw [calculate_duration_audio, hST_audio]
    simp
  have hval : validate_format (calculate_duration ST) = Except.ok () := by
    rw [validate_format_some _ _ hq, if_neg hpcmq, if_neg hchq, if_neg hsrq, if_neg hadq]
  have hsc2 : ∃ n2, calculate_sample_count (calculate_duration ST) = Except.ok n2 := by
    obtain ⟨n, hn⟩ := hsc
    rw [calculate_sample_count_some st cd.data f haud hf] at hn
    rw [calculate_sample_count_some (calculate_duration ST) cd.data
        ({ f with duration_seconds := q }) (by rw [calculate_duration_audio, hST_audio]) hq]
    by_cases hemp : cd.data = []
    · exact ⟨0, by rw [if_pos hemp]⟩
    · rw [if_neg hemp] at hn ⊢
      by_cases hdiv : (f.bits_per_sample / 8) * f.channels = 0
      · rw [if_pos hdiv] at hn; simp at hn
      · rw [if_neg hdiv] at hn
        have hdivq : ¬ (({ f with duration_seconds := q } : WAVFormat).bits_per_sample / 8 *
            ({ f with duration_seconds := q } : WAVFormat).channels = 0) := hdiv
        exact ⟨_, by rw [if_neg hdivq]⟩
  have hgi : ∃ info2, get_info (calculate_duration ST) = Except.ok info2 := by
    obtain ⟨n2, hn2⟩ := hsc2
    rw [get_info_some _ _ hq, hn2]
    exact ⟨_, rfl⟩
  obtain ⟨info2, hinfo2⟩ := hgi
  refine ⟨calculate_duration ST, info2, ?_, ?_, ?_, ?_, ?_⟩
  · rw [hwb, parse_riff_wave, hcs, hbody]
    show (match validate_format (calculate_duration ST) with
          | .error e => (calculate_duration ST, Except.error e)
          | .ok _ => (calculate_duration ST, get_info (calculate_duration ST))) = _
    rw [hval]
    show (calculate_duration ST, get_info (calculate_duration ST)) = _
    rw [hinfo2]
  · rw [calculate_duration_audio, hST_audio]
  · intro id
    rw [calculate_duration_chunks, hlk_isSome, lookup_isSome_iff_mem]
    constructor
    · rintro (rfl | rfl | hmem)
      · exact (lookup_isSome_iff_mem _ _).mp (by rw [hcf]; rfl)
      · exact (lookup_isSome_iff_mem _ _).mp (by rw [hcd]; rfl)
      · exact ((mem_otherKeys st id).mp hmem).1
    · intro hmem
      by_cases h1 : id = fmtId
      · exact Or.inl h1
      · by_cases h2 : id = dataId
        · exact Or.inr (Or.inl h2)
        · exact Or.inr (Or.inr ((mem_otherKeys st id).mpr ⟨hmem, by simp [h1, h2]⟩))
  · intro id c c' hlk hlk'
    rw [calculate_duration_chunks] at hlk'
    by_cases h1 : id = fmtId
    · subst h1
      rw [hcf] at hlk
      rw [hlkf] at hlk'
      injection hlk with hlk
      injection hlk' with hlk'
      rw [← hlk, ← hlk']
    · by_cases h2 : id = dataId
      · subst h2
        rw [hcd] at hlk
        rw [hlkd] at hlk'
        injection hlk with hlk
        injection hlk' with hlk'
        rw [← hlk, ← hlk']
      · have hmem : id ∈ otherKeys st := by
          refine (mem_otherKeys st id).mpr ⟨?_, by simp [h1, h2]⟩
          exact (lookup_isSome_iff_mem _ _).mp (by rw [hlk]; rfl)
        obtain ⟨off, hoff⟩ := hlko id hmem
        have hcid : chunkAtKey st id = c := by rw [chunkAtKey, hlk]; rfl
        rw [hoff] at hlk'
        injection hlk' with hlk'
        rw [← hlk', hcid]
  · rw [hq]
    rfl

/-!  Concrete test files (byte lists) used to instantiate the claims.
The declared RIFF size field is never validated on read, so it is left
zero in these inputs. -/

/-- A 16-byte PCM format payload: tag 1, 1 channel, sample rate 8000,
byte rate 2, block align 1, 8 bits per sample. -/
def fmtPCM : List Nat := [1, 0, 1, 0, 64, 31, 0, 0, 2, 0, 0, 0, 1, 0, 8, 0]

/-- A valid little WAV file: fmt chunk then a 2-byte data chunk. -/
def wavA : List Nat :=
  riffTag ++ [0, 0, 0, 0] ++ waveTag ++ fmtId ++ [16, 0, 0, 0] ++ fmtPCM ++
    dataId ++ [2, 0, 0, 0] ++ [7, 8]

/-- The duration parse computes for wavA: 2 bytes / byte rate 2. -/
def durA : Rat := ((2 : Nat) : Rat) / ((2 : Nat) : Rat)

/-- The parser state after a successful parse of wavA. -/
def stA : ParserState :=
  ⟨some ⟨1, 1, 8000, 2, 1, 8, durA⟩,
   [(fmtId, ⟨fmtId, 16, fmtPCM, 20⟩), (dataId, ⟨dataId, 2, [7, 8], 44⟩)],
   some [7, 8]⟩

/-- The summary info parse returns for wavA. -/
def infoA : WAVInfo := ⟨1, 1, 8000, 2, 1, 8, true, durA, 2, 2, [(fmtId, 16), (dataId, 2)]⟩

/-- The state after replace_chunk(stA, "data", b""): the data chunk is
emptied but duration_seconds keeps its stale value durA. -/
def stA2 : ParserState :=
  ⟨some ⟨1, 1, 8000, 2, 1, 8, durA⟩,
   [(fmtId, ⟨fmtId, 16, fmtPCM, 20⟩), (dataId, ⟨dataId, 0, [], 44⟩)],
   some []⟩

/-- A file with a fmt chunk but no data chunk: parse fails in
post-parse validation, after format_info has been populated. -/
def wavNoData : List Nat :=
  riffTag ++ [0, 0, 0, 0] ++ waveTag ++ fmtId ++ [16, 0, 0, 0] ++ fmtPCM

/-- A valid WAV file whose data chunk payload is empty. -/
def wavE : List Nat :=
  riffTag ++ [0, 0, 0, 0] ++ waveTag ++ fmtId ++ [16, 0, 0, 0] ++ fmtPCM ++
    dataId ++ [0, 0, 0, 0]

/-- The parser state after a successful parse of wavE (duration stays
0: the truthiness guard skips the empty audio buffer). -/
def stE : ParserState :=
  ⟨some ⟨1, 1, 8000, 2, 1, 8, 0⟩,
   [(fmtId, ⟨fmtId, 16, fmtPCM, 20⟩), (dataId, ⟨dataId, 0, [], 44⟩)],
   some []⟩

/-- The summary info parse returns for wavE. -/
def infoE : WAVInfo := ⟨1, 1, 8000, 2, 1, 8, true, 0, 0, 0, [(fmtId, 16), (dataId, 0)]⟩

/-- A PCM format payload with bits_per_sample = 12 (not a multiple
of 8): tag 1, 1 channel, rate 8000, byte rate 2, block align 2. -/
def fmt12 : List Nat := [1, 0, 1, 0, 64, 31, 0, 0, 2, 0, 0, 0, 2, 0, 12, 0]

/-- A WAV file with bits_per_sample = 12 and 3 bytes of audio data. -/
def wav12 : List Nat :=
  riffTag ++ [0, 0, 0, 0] ++ waveTag ++ fmtId ++ [16, 0, 0, 0] ++ fmt12 ++
    dataId ++ [3, 0, 0, 0] ++ [1, 2, 3]

/-- The duration parse computes for wav12: 3 bytes / byte rate 2. -/
def durB : Rat := ((3 : Nat) : Rat) / ((2 : Nat) : Rat)

/-- The parser state after a successful parse of wav12. -/
def stB : ParserState :=
  ⟨some ⟨1, 1, 8000, 2, 2, 12, durB⟩,
   [(fmtId, ⟨fmtId, 16, fmt12, 20⟩), (dataId, ⟨dataId, 3, [1, 2, 3], 44⟩)],
   some [1, 2, 3]⟩

/-- The summary info parse returns for wav12: sample_count is
3 // ((12 // 8) * 1) = 3. -/
def infoB : WAVInfo := ⟨1, 1, 8000, 2, 2, 12, true, durB, 3, 3, [(fmtId, 16), (dataId, 3)]⟩

/-- A PCM format payload with bits_per_sample = 4 (less than 8). -/
def fmt4 : List Nat := [1, 0, 1, 0, 64, 31, 0, 0, 2, 0, 0, 0, 1, 0, 4, 0]

/-- A WAV file with bits_per_sample = 4 and a non-empty data chunk:
the sample-count computation divides by (4 // 8) * 1 = 0. -/
def wav4 : List Nat :=
  riffTag ++ [0, 0, 0, 0] ++ waveTag ++ fmtId ++ [16, 0, 0, 0] ++ fmt4 ++
    dataId ++ [1, 0, 0, 0] ++ [9]

unseal parse_chunks

theorem replace_chunk_none (st : ParserState) (id d : List Nat)
    (hf : st.format_info = none) :
    replace_chunk st id d = Except.error (.wavError "File not parsed yet. Call parse() first.") := by
  obtain ⟨fi, ch, ad⟩ := st
  simp only at hf
  subst hf
  rfl

theorem replace_chunk_some (st : ParserState) (f0 : WAVFormat)
    (hf : st.format_info = some f0) (id d : List Nat) :
    replace_chunk st id d =
      (match lookupChunk st.chunks id with
       | none => Except.error (.keyError "Chunk not found")
       | some old_chunk =>
           if id = dataId then
             Except.ok (calculate_duration
               { st with chunks := insertChunk st.chunks id ⟨id, d.length, d, old_chunk.offset⟩,
                         audio_data := some d })
           else
             Except.ok { st with chunks := insertChunk st.chunks id ⟨id, d.length, d, old_chunk.offset⟩ }) := by
  obtain ⟨fi, ch, ad⟩ := st
  simp only at hf
  subst hf
  rfl

theorem add_chunk_none (st : ParserState) (id d : List Nat)
    (hf : st.format_info = none) :
    add_chunk st id d = Except.error (.wavError "File not parsed yet. Call parse() first.") := by
  obtain ⟨fi, ch, ad⟩ := st
  simp only at hf
  subst hf
  rfl

theorem add_chunk_some (st : ParserState) (f0 : WAVFormat)
    (hf : st.format_info = some f0) (id d : List Nat) :
    add_chunk st id d =
      (if id.length ≠ 4 then
        Except.error (.valueError "Chunk ID must be exactly 4 characters")
      else if ¬ (id.all fun b => b < 128) then
        Except.error (.valueError "Chunk ID must contain only ASCII characters")
      else if (lookupChunk st.chunks id).isSome then
        Except.error (.valueError "Chunk already exists. Use replace_chunk() to modify it.")
      else
        Except.ok { st with chunks := insertChunk st.chunks id ⟨id, d.length, d, 0⟩ }) := by
  obtain ⟨fi, ch, ad⟩ := st
  simp only at hf
  subst hf
  rfl

theorem set_chunk_none (st : ParserState) (id d : List Nat)
    (hf : st.format_info = none) :
    set_chunk st id d = Except.error (.wavError "File not parsed yet. Call parse() first.") := by
  obtain ⟨fi, ch, ad⟩ := st
  simp only at hf
  subst hf
  rfl

theorem set_chunk_some (st : ParserState) (f0 : WAVFormat)
    (hf : st.format_info = some f0) (id d : List Nat) :
    set_chunk st id d =
      (if id.length ≠ 4 then
        Except.error (.valueError "Chunk ID must be exactly 4 characters")
      else if ¬ (id.all fun b => b < 128) then
        Except.error (.valueError "Chunk ID must contain only ASCII characters")
      else if (lookupChunk st.chunks id).isSome then
        replace_chunk st id d
      else
        add_chunk st id d) := by
  obtain ⟨fi, ch, ad⟩ := st
  simp only at hf
  subst hf
  rfl

theorem copy_chunk_none (st : ParserState) (id : List Nat) (src : ParserState)
    (hf : st.format_info = none) :
    copy_chunk_from_session st id src =
      Except.error (.wavError "File not parsed yet. Call parse() first.") := by
  obtain ⟨fi, ch, ad⟩ := st
  simp only at hf
  subst hf
  rfl

theorem copy_chunk_some (st : ParserState) (f0 : WAVFormat)
    (hf : st.format_info = some f0) (id : List Nat) (src : ParserState) :
    copy_chunk_from_session st id src =
      (match src.format_info with
       | none => Except.error (.wavError "Source has not been parsed yet.")
       | some _ =>
           match lookupChunk src.chunks id with
           | none => Except.error (.keyError "Chunk not found in source")
           | some source_chunk => set_chunk st id source_chunk.data) := by
  obtain ⟨fi, ch, ad⟩ := st
  simp only at hf
  subst hf
  rfl

theorem export_chunk_some (st : ParserState) (f0 : WAVFormat)
    (hf : st.format_info = some f0) (id : List Nat) :
    export_chunk st id =
      (match lookupChunk st.chunks id with
       | none => Except.error (.keyError "Chunk not found")
       | some chunk => Except.ok (chunk.data, chunk.data.length)) := by
  obtain ⟨fi, ch, ad⟩ := st
  simp only at hf
  subst hf
  rfl

theorem export_audio_data_some (st : ParserState) (f0 : WAVFormat) (ad : List Nat)
    (hf : st.format_info = some f0) (ha : st.audio_data = some ad) :
    export_audio_data st =
      (if ad = [] then Except.error (.wavError "No audio data available to export.")
       else export_chunk st dataId) := by
  obtain ⟨fi, ch, ad'⟩ := st
  simp only at hf ha
  subst hf
  subst ha
  rfl

/-- The chunk-record size invariant: every stored record's declared
size equals its buffer length. -/
def SizesOK (l : List (List Nat × WAVChunk)) : Prop :=
  ∀ p ∈ l, p.2.size = p.2.data.length

theorem insert_sizesOK (l : List (List Nat × WAVChunk)) (id : List Nat) (c : WAVChunk)
    (h : SizesOK l) (hc : c.size = c.data.length) : SizesOK (insertChunk l id c) := by
  intro p hp
  rcases mem_insertChunk l id c p hp with he | hm
  · rw [he]; exact hc
  · exact h p hm

theorem parse_chunks_sizesOK (bs : List Nat) (pos : Nat) (st : ParserState) :
    SizesOK st.chunks → SizesOK (parse_chunks bs pos st).1.chunks := by
  induction bs, pos, st using parse_chunks.induct with
  | case1 bs pos st h =>
      intro hs
      rw [parse_chunks, dif_pos h]
      exact hs
  | case2 bs pos st h1 h2 =>
      intro hs
      rw [parse_chunks, dif_neg h1, if_pos h2]
      exact hs
  | case3 bs pos st h1 h2 h3 =>
      intro hs
      rw [parse_chunks, dif_neg h1, if_neg h2, if_pos h3]
      exact hs
  | case4 bs pos st h1 h2 h3 h4 =>
      intro hs
      rw [parse_chunks, dif_neg h1, if_neg h2, if_neg h3, if_pos h4]
      exact hs
  | case5 bs pos st h1 h2 h3 h4 h5 e he =>
      intro hs
      rw [parse_chunks, dif_neg h1, if_neg h2, if_neg h3, if_neg h4, if_pos h5, he]
      exact insert_sizesOK _ _ _ hs (not_ne_iff.mp h4).symm
  | case6 bs pos st h1 h2 h3 h4 h5 f hf ih =>
      intro hs
      rw [parse_chunks, dif_neg h1, if_neg h2, if_neg h3, if_neg h4, if_pos h5, hf]
      exact ih (insert_sizesOK _ _ _ hs (not_ne_iff.mp h4).symm)
  | case7 bs pos st h1 h2 h3 h4 h5 h6 ih =>
      intro hs
      rw [parse_chunks, dif_neg h1, if_neg h2, if_neg h3, if_neg h4, if_neg h5, if_pos h6]
      exact ih (insert_sizesOK _ _ _ hs (not_ne_iff.mp h4).symm)
  | case8 bs pos st h1 h2 h3 h4 h5 h6 ih =>
      intro hs
      rw [parse_chunks, dif_neg h1, if_neg h2, if_neg h3, if_neg h4, if_neg h5, if_neg h6]
      exact ih (insert_sizesOK _ _ _ hs (not_ne_iff.mp h4).symm)

theorem parse_sizesOK (bs : List Nat) : SizesOK (parse bs).1.chunks := by
  have hinit : SizesOK initState.chunks := by intro p hp; simp [initState] at hp
  rw [parse]
  split_ifs with h1 h2 h3
  · exact hinit
  · exact hinit
  · exact hinit
  · rcases hpc : parse_chunks (bs.drop 12) 12 initState with ⟨st1, e⟩
    have hs1 : SizesOK st1.chunks := by
      have := parse_chunks_sizesOK (bs.drop 12) 12 initState hinit
      rw [hpc] at this
      exact this
    cases e with
    | some e => simpa using hs1
    | none =>
        rcases hv : validate_format (calculate_duration st1) with e | u
        · simpa [hv, calculate_duration_chunks] using hs1
        · simpa [hv, calculate_duration_chunks] using hs1

theorem replace_preserves_DurationInv (st : ParserState) (id d : List Nat)
    (st' : ParserState) (hne : d ≠ []) (hinv : DurationInv st)
    (h : replace_chunk st id d = Except.ok st') : DurationInv st' := by
  obtain ⟨fi, ch, ad⟩ := st
  cases fi with
  | none => simp [replace_chunk] at h
  | some f0 =>
      simp only [replace_chunk] at h
      rcases hlk : lookupChunk ch id with _ | old
      · rw [hlk] at h; simp at h
      · rw [hlk] at h
        simp only [] at h
        by_cases hid : id = dataId
        · rw [if_pos hid] at h
          simp only [Except.ok.injEq] at h
          subst h
          intro f' hf'
          by_cases hrate : 0 < f0.byte_rate
          · simp only [calculate_duration, if_pos (And.intro hne hrate)] at hf' ⊢
            simp only [Option.some.injEq] at hf'
            subst hf'
            simp [hrate]
          · simp only [calculate_duration,
              if_neg (fun hc : d ≠ [] ∧ 0 < f0.byte_rate => hrate hc.2)] at hf' ⊢
            simp only [Option.some.injEq] at hf'
            subst hf'
            have h0 := hinv _ rfl
            rw [if_neg hrate] at h0
            rw [if_neg hrate]
            exact h0
        · rw [if_neg hid] at h
          simp only [Except.ok.injEq] at h
          subst h
          intro f' hf'
          simp only [Option.some.injEq] at hf'
          subst hf'
          exact hinv _ rfl

theorem add_preserves_DurationInv (st : ParserState) (id d : List Nat)
    (st' : ParserState) (hinv : DurationInv st)
    (h : add_chunk st id d = Except.ok st') : DurationInv st' := by
  obtain ⟨fi, ch, ad⟩ := st
  cases fi with
  | none => simp [add_chunk] at h
  | some f0 =>
      simp only [add_chunk] at h
      split_ifs at h <;>
        first
          | (simp at h; done)
          | (simp only [Except.ok.injEq] at h
             subst h
             intro f' hf'
             simp only [Option.some.injEq] at hf'
             subst hf'
             exact hinv _ rfl)

theorem set_preserves_DurationInv (st : ParserState) (id d : List Nat)
    (st' : ParserState) (hne : d ≠ []) (hinv : DurationInv st)
    (h : set_chunk st id d = Except.ok st') : DurationInv st' := by
  rcases hfi : st.format_info with _ | f0
  · rw [set_chunk_none st id d hfi] at h
    simp at h
  · rw [set_chunk_some st f0 hfi] at h
    split_ifs at h <;>
      first
        | (simp at h; done)
        | exact replace_preserves_DurationInv st id d st' hne hinv h
        | exact add_preserves_DurationInv st id d st' hinv h

theorem replace_preserves_SizesOK (st : ParserState) (id d : List Nat)
    (st' : ParserState) (hs : SizesOK st.chunks)
    (h : replace_chunk st id d = Except.ok st') : SizesOK st'.chunks := by
  rcases hfi : st.format_info with _ | f0
  · rw [replace_chunk_none st id d hfi] at h
    simp at h
  · rw [replace_chunk_some st f0 hfi] at h
    rcases hlk : lookupChunk st.chunks id with _ | old
    · rw [hlk] at h; simp at h
    · rw [hlk] at h
      simp only [] at h
      by_cases hid : id = dataId
      · rw [if_pos hid] at h
        simp only [Except.ok.injEq] at h
        subst h
        rw [calculate_duration_chunks]
        exact insert_sizesOK _ _ _ hs rfl
      · rw [if_neg hid] at h
        simp only [Except.ok.injEq] at h
        subst h
        exact insert_sizesOK _ _ _ hs rfl

theorem add_preserves_SizesOK (st : ParserState) (id d : List Nat)
    (st' : ParserState) (hs : SizesOK st.chunks)
    (h : add_chunk st id d = Except.ok st') : SizesOK st'.chunks := by
  rcases hfi : st.format_info with _ | f0
  · rw [add_chunk_none st id d hfi] at h
    simp at h
  · rw [add_chunk_some st f0 hfi] at h
    split_ifs at h <;>
      first
        | (simp at h; done)
        | (simp only [Except.ok.injEq] at h
           subst h
           exact insert_sizesOK _ _ _ hs rfl)

theorem set_preserves_SizesOK (st : ParserState) (id d : List Nat)
    (st' : ParserState) (hs : SizesOK st.chunks)
    (h : set_chunk st id d = Except.ok st') : SizesOK st'.chunks := by
  rcases hfi : st.format_info with _ | f0
  · rw [set_chunk_none st id d hfi] at h
    simp at h
  · rw [set_chunk_some st f0 hfi] at h
    split_ifs at h <;>
      first
        | (simp at h; done)
        | exact replace_preserves_SizesOK st id d st' hs h
        | exact add_preserves_SizesOK st id d st' hs h

theorem copy_preserves_SizesOK (st : ParserState) (id : List Nat) (src : ParserState)
    (st' : ParserState) (hs : SizesOK st.chunks)
    (h : copy_chunk_from_session st id src = Except.ok st') : SizesOK st'.chunks := by
  rcases hfi : st.format_info with _ | f0
  · rw [copy_chunk_none st id src hfi] at h
    simp at h
  · rw [copy_chunk_some st f0 hfi] at h
    rcases hsf : src.format_info with _ | sf
    · rw [hsf] at h; simp at h
    · rw [hsf] at h
      simp only [] at h
      rcases hslk : lookupChunk src.chunks id with _ | sc
      · rw [hslk] at h; simp at h
      · rw [hslk] at h
        simp only [] at h
        exact set_preserves_SizesOK st id sc.data st' hs h

/-!  Claim theorems. -/

/-- Claim C2 (counterexample): the duration invariant does NOT hold
after replacing the "data" chunk with the empty byte sequence.  On the
session parsed from wavA (duration 2/2), replace_chunk("data", b"")
succeeds, leaves audio_data empty, yet duration_seconds keeps its
stale value 2/2 although byte_rate = 2 > 0 demands 0/2 = 0. -/
theorem C2_duration_counterexample :
    parse wavA = (stA, Except.ok infoA) ∧
    replace_chunk stA dataId [] = Except.ok stA2 ∧
    stA2.audio_data = some [] ∧
    stA2.format_info.map (fun f => f.duration_seconds) = some durA ∧
    stA2.format_info.map (fun f => f.byte_rate) = some 2 ∧
    durA ≠ ((0 : Nat) : Rat) / ((2 : Nat) : Rat) :=
  ⟨by rfl, by rfl, by rfl, by rfl, by rfl, by norm_num [durA]⟩

/-- Claim C2 (amended): duration_seconds equals audio length divided
by byte_rate (0 when byte_rate is 0) after every successful parse, and
this invariant is preserved by replace_chunk / set_chunk of the "data"
chunk with any NON-EMPTY byte sequence (and by all replace/set of
other chunks); replacing "data" with the empty sequence leaves
duration_seconds at its previous value, so the invariant can break
there. -/
theorem C2_duration_invariant :
    (∀ (bs : List Nat) (st : ParserState) (info : WAVInfo),
       (∀ b ∈ bs, b < 256) → parse bs = (st, Except.ok info) → DurationInv st) ∧
    (∀ (st : ParserState) (id d : List Nat) (st' : ParserState),
       d ≠ [] → DurationInv st → replace_chunk st id d = Except.ok st' → DurationInv st') ∧
    (∀ (st : ParserState) (id d : List Nat) (st' : ParserState),
       d ≠ [] → DurationInv st → set_chunk st id d = Except.ok st' → DurationInv st') :=
  ⟨parse_ok_duration, replace_preserves_DurationInv, set_preserves_DurationInv⟩

/-- Claim C2 witness: the duration invariant holds on the concrete
session parsed from wavA. -/
theorem C2_duration_invariant_witness : DurationInv stA :=
  C2_duration_invariant.1 wavA stA infoA (by decide) (by rfl)

/-- Claim C3 (counterexample): a parse that fails post-parse
validation with "No audio data found" leaves a session on which
replace_chunk succeeds instead of failing with NotParsed: the format
descriptor was populated before validation failed. -/
theorem C3_notparsed_counterexample :
    (parse wavNoData).2 = Except.error (.invalidFormat "No audio data found") ∧
    (replace_chunk (parse wavNoData).1 fmtId [1, 2, 3]).isOk = true :=
  ⟨by rfl, by rfl⟩

/-- Claim C3 (amended): each chunk-mutation operation fails with the
NotParsed error exactly when format_info is absent — i.e. when the
parse failed before the "fmt " chunk was decoded.  A parse that fails
after decoding "fmt " (e.g. in post-parse validation) leaves
format_info set and the mutations proceed. -/
theorem C3_notparsed_guard :
    (∀ (st : ParserState) (id d : List Nat),
       replace_chunk st id d =
         Except.error (.wavError "File not parsed yet. Call parse() first.") ↔
       st.format_info = none) ∧
    (∀ (st : ParserState) (id d : List Nat),
       add_chunk st id d =
         Except.error (.wavError "File not parsed yet. Call parse() first.") ↔
       st.format_info = none) ∧
    (∀ (st : ParserState) (id d : List Nat),
       set_chunk st id d =
         Except.error (.wavError "File not parsed yet. Call parse() first.") ↔
       st.format_info = none) ∧
    (∀ (st : ParserState) (id : List Nat) (src : ParserState),
       copy_chunk_from_session st id src =
         Except.error (.wavError "File not parsed yet. Call parse() first.") ↔
       st.format_info = none) := by
  have hrep : ∀ (st : ParserState) (id d : List Nat),
      replace_chunk st id d =
        Except.error (.wavError "File not parsed yet. Call parse() first.") ↔
      st.format_info = none := by
    intro st id d
    constructor
    · intro h
      rcases hfi : st.format_info with _ | f0
      · rfl
      · exfalso
        rw [replace_chunk_some st f0 hfi] at h
        rcases hlk : lookupChunk st.chunks id with _ | old
        · rw [hlk] at h; simp at h
        · rw [hlk] at h
          simp only [] at h
          split_ifs at h <;> simp at h
    · intro h
      exact replace_chunk_none st id d h
  have hadd : ∀ (st : ParserState) (id d : List Nat),
      add_chunk st id d =
        Except.error (.wavError "File not parsed yet. Call parse() first.") ↔
      st.format_info = none := by
    intro st id d
    constructor
    · intro h
      rcases hfi : st.format_info with _ | f0
      · rfl
      · exfalso
        rw [add_chunk_some st f0 hfi] at h
        split_ifs at h <;> simp at h
    · intro h
      exact add_chunk_none st id d h
  have hset : ∀ (st : ParserState) (id d : List Nat),
      set_chunk st id d =
        Except.error (.wavError "File not parsed yet. Call parse() first.") ↔
      st.format_info = none := by
    intro st id d
    constructor
    · intro h
      rcases hfi : st.format_info with _ | f0
      · rfl
      · exfalso
        rw [set_chunk_some st f0 hfi] at h
        split_ifs at h <;>
          first
            | (simp at h; done)
            | (rw [(hrep st id d).mp h] at hfi; simp at hfi; done)
            | (rw [(hadd st id d).mp h] at hfi; simp at hfi; done)
    · intro h
      exact set_chunk_none st id d h
  have hcopy : ∀ (st : ParserState) (id : List Nat) (src : ParserState),
      copy_chunk_from_session st id src =
        Except.error (.wavError "File not parsed yet. Call parse() first.") ↔
      st.format_info = none := by
    intro st id src
    constructor
    · intro h
      rcases hfi : st.format_info with _ | f0
      · rfl
      · exfalso
        rw [copy_chunk_some st f0 hfi] at h
        rcases hsf : src.format_info with _ | sf
        · rw [hsf] at h
          simp at h
        · rw [hsf] at h
          simp only [] at h
          rcases hslk : lookupChunk src.chunks id with _ | sc
          · rw [hslk] at h; simp at h
          · rw [hslk] at h
            simp only [] at h
            rw [(hset st id sc.data).mp h] at hfi
            simp at hfi
    · intro h
      exact copy_chunk_none st id src h
  exact ⟨hrep, hadd, hset, hcopy⟩

/-- Claim C3 witness: on a freshly constructed (unparsed) session,
replace_chunk fails with the NotParsed error. -/
theorem C3_notparsed_guard_witness :
    replace_chunk initState fmtId [] =
      Except.error (.wavError "File not parsed yet. Call parse() first.") :=
  (C3_notparsed_guard.1 initState fmtId []).mpr (by rfl)

/-- Claim C4 (counterexample): on the session parsed from wavE (whose
"data" payload is empty), export_audio_data fails while
export_chunk("data") succeeds writing 0 bytes, so the two operations
are not equivalent when the data payload is empty. -/
theorem C4_export_counterexample :
    parse wavE = (stE, Except.ok infoE) ∧
    export_audio_data stE = Except.error (.wavError "No audio data available to export.") ∧
    export_chunk stE dataId = Except.ok ([], 0) :=
  ⟨by rfl, by rfl, by rfl⟩

/-- Claim C4 (amended): for every successfully parsed session,
export_audio_data is equivalent to export_chunk("data") whenever the
audio payload is non-empty; when the payload is empty,
export_audio_data fails with a WAVError (Python truthiness treats the
empty buffer as missing) while export_chunk("data") succeeds and
returns 0 bytes. -/
theorem C4_export_equivalence (bs : List Nat) (st : ParserState) (info : WAVInfo)
    (hb : ∀ b ∈ bs, b < 256) (hp : parse bs = (st, Except.ok info)) :
    (st.audio_data ≠ some [] → export_audio_data st = export_chunk st dataId) ∧
    (st.audio_data = some [] →
      export_audio_data st = Except.error (.wavError "No audio data available to export.") ∧
      export_chunk st dataId = Except.ok ([], 0)) := by
  obtain ⟨hwf, ⟨cd, hcd, haud⟩, ⟨f, cf, hf, _, _, _, _⟩, _⟩ := parse_ok_state bs st info hb hp
  constructor
  · intro hne
    rw [export_audio_data_some st f cd.data hf haud]
    rw [if_neg (fun he => hne (by rw [haud, he]))]
  · intro hemp
    have hcddata : cd.data = [] := by
      rw [haud] at hemp
      exact Option.some_injective _ hemp
    constructor
    · rw [export_audio_data_some st f cd.data hf haud, if_pos hcddata]
    · rw [export_chunk_some st f hf, hcd]
      simp [hcddata]

/-- Claim C4 witness: the equivalence at the concrete session parsed
from wavA, whose data payload [7, 8] is non-empty. -/
theorem C4_export_equivalence_witness :
    stA.audio_data ≠ some [] ∧ export_audio_data stA = export_chunk stA dataId :=
  ⟨by decide,
   (C4_export_equivalence wavA stA infoA (by decide) (by rfl)).1 (by decide)⟩

/-- Claim C6 (counterexample): for bits_per_sample = 12 (not a
multiple of 8) the claimed formula len // (bits/8 × channels) with
real division inside gives floor(3 / 1.5) = 2, but the code computes
len // ((bits // 8) × channels) = 3 // 1 = 3. -/
theorem C6_sample_count_counterexample :
    parse wav12 = (stB, Except.ok infoB) ∧
    infoB.sample_count = 3 ∧
    ⌊(infoB.audio_data_size : Rat) /
      ((infoB.bits_per_sample : Rat) / 8 * (infoB.channels : Rat))⌋ = 2 ∧
    (3 : Int) ≠ 2 :=
  ⟨by rfl, by rfl, by norm_num [infoB], by decide⟩

/-- Claim C6 (amended): for every successfully parsed session the
reported sample_count equals len(audio_data) // ((bits_per_sample //
8) × channels) — integer division of bits_per_sample by 8 first, as
the code computes it; sessions on which this expression would divide
by zero with non-empty audio data never parse successfully. -/
theorem C6_sample_count (bs : List Nat) (st : ParserState) (info : WAVInfo)
    (f : WAVFormat) (hb : ∀ b ∈ bs, b < 256)
    (hp : parse bs = (st, Except.ok info)) (hf : st.format_info = some f) :
    info.sample_count = (st.audio_data.getD []).length /
      ((f.bits_per_sample / 8) * f.channels) := by
  obtain ⟨hwf, ⟨cd, hcd, haud⟩, ⟨f2, cf, hf2, _, _, _, _⟩, hinfo⟩ :=
    parse_ok_state bs st info hb hp
  have hsc := (get_info_ok_elim st f info hf hinfo).1
  rw [calculate_sample_count_some st cd.data f haud hf] at hsc
  rw [haud]
  simp only [Option.getD_some]
  by_cases hemp : cd.data = []
  · rw [if_pos hemp] at hsc
    rw [hemp, ← Except.ok.inj hsc]
    simp
  · rw [if_neg hemp] at hsc
    by_cases hdiv : (f.bits_per_sample / 8) * f.channels = 0
    · rw [if_pos hdiv] at hsc
      simp at hsc
    · rw [if_neg hdiv] at hsc
      exact (Except.ok.inj hsc).symm

/-- Claim C6 witness: the amended sample-count law at the concrete
session parsed from wav12. -/
theorem C6_sample_count_witness :
    infoB.sample_count = (stB.audio_data.getD []).length / ((12 / 8) * 1) :=
  C6_sample_count wav12 stB infoB ⟨1, 1, 8000, 2, 2, 12, durB⟩
    (by decide) (by rfl) (by rfl)

/-- Claim C7: the size == length(data) invariant holds for the chunk
store after parse (on any input, even one whose parse fails part way)
and is preserved by replace_chunk, add_chunk, set_chunk and
copy_chunk_from_parser. -/
theorem C7_size_invariant :
    (∀ bs : List Nat, SizesOK (parse bs).1.chunks) ∧
    (∀ (st : ParserState) (id d : List Nat) (st' : ParserState),
       SizesOK st.chunks → replace_chunk st id d = Except.ok st' → SizesOK st'.chunks) ∧
    (∀ (st : ParserState) (id d : List Nat) (st' : ParserState),
       SizesOK st.chunks → add_chunk st id d = Except.ok st' → SizesOK st'.chunks) ∧
    (∀ (st : ParserState) (id d : List Nat) (st' : ParserState),
       SizesOK st.chunks → set_chunk st id d = Except.ok st' → SizesOK st'.chunks) ∧
    (∀ (st : ParserState) (id : List Nat) (src st' : ParserState),
       SizesOK st.chunks → copy_chunk_from_session st id src = Except.ok st' →
       SizesOK st'.chunks) :=
  ⟨parse_sizesOK, replace_preserves_SizesOK, add_preserves_SizesOK,
   set_preserves_SizesOK, copy_preserves_SizesOK⟩

/-- Claim C7 witness: the invariant at the concrete parse of wavA and
after a concrete replace_chunk on that session. -/
theorem C7_size_invariant_witness :
    SizesOK (parse wavA).1.chunks ∧ SizesOK stA2.chunks :=
  ⟨C7_size_invariant.1 wavA,
   C7_size_invariant.2.1 stA dataId [] stA2
     (by intro p hp; fin_cases hp <;> rfl) (by rfl)⟩

/-- Claim C8: format chunk decoder errors.  Payloads shorter than 16
bytes are rejected; non-PCM payloads shorter than 18 bytes are
rejected; non-PCM payloads shorter than 18 + extra-size (the uint16
at offset 16) are rejected; a tag-6 payload of exactly 18 bytes with
extra size 0 decodes, and any session carrying the decoded descriptor
is then rejected by post-parse validation as unsupported. -/
theorem C8_format_chunk_errors :
    (∀ d : List Nat, d.length < 16 →
       parseFormatChunk d = Except.error (.invalidFormat "Format chunk too small")) ∧
    (∀ d : List Nat, 16 ≤ d.length → unpackLE (d.take 2) ≠ 1 → d.length < 18 →
       parseFormatChunk d =
         Except.error (.invalidFormat "requires at least 18 bytes in format chunk")) ∧
    (∀ d : List Nat, 18 ≤ d.length → unpackLE (d.take 2) ≠ 1 →
       d.length < 18 + unpackLE ((d.drop 16).take 2) →
       parseFormatChunk d =
         Except.error (.invalidFormat "Format chunk size is smaller than expected")) ∧
    (∀ d : List Nat, d.length = 18 → unpackLE (d.take 2) = 6 →
       unpackLE ((d.drop 16).take 2) = 0 →
       ∃ f, parseFormatChunk d = Except.ok f ∧ f.audio_format = 6 ∧
         ∀ s : ParserState, s.format_info = some f →
           validate_format s =
             Except.error (.invalidFormat "Unsupported audio format (only PCM is supported)")) := by
  refine ⟨?_, ?_, ?_, ?_⟩
  · intro d h
    rw [parseFormatChunk, if_pos h]
  · intro d h16 htag h18
    have h16' : ¬ d.length < 16 := by omega
    simp [parseFormatChunk, h16', htag, h18]
  · intro d h18 htag hext
    have h16' : ¬ d.length < 16 := by omega
    have h18' : ¬ d.length < 18 := by omega
    simp [parseFormatChunk, h16', htag, h18', hext]
  · intro d hlen htag hext
    have h16' : ¬ d.length < 16 := by omega
    have h18' : ¬ d.length < 18 := by omega
    refine ⟨⟨unpackLE (d.take 2), unpackLE ((d.drop 2).take 2),
      unpackLE ((d.drop 4).take 4), unpackLE ((d.drop 8).take 4),
      unpackLE ((d.drop 12).take 2), unpackLE ((d.drop 14).take 2), 0⟩, ?_, htag, ?_⟩
    · simp [parseFormatChunk, h16', htag, h18', hext]
    · intro s hs
      rw [validate_format_some s _ hs]
      rw [if_pos (by simp [WAVFormat.is_pcm, htag])]

/-- Claim C8 witness: the four decoder clauses at concrete payloads
(empty; tag-6 with 16 bytes; tag-6, 18 bytes, extra-size 5; tag-6,
18 bytes, extra-size 0 followed by the unsupported-format
rejection). -/
theorem C8_format_chunk_errors_witness :
    parseFormatChunk [] = Except.error (.invalidFormat "Format chunk too small") ∧
    parseFormatChunk [6, 0, 1, 0, 64, 31, 0, 0, 2, 0, 0, 0, 1, 0, 8, 0] =
      Except.error (.invalidFormat "requires at least 18 bytes in format chunk") ∧
    parseFormatChunk [6, 0, 1, 0, 64, 31, 0, 0, 2, 0, 0, 0, 1, 0, 8, 0, 5, 0] =
      Except.error (.invalidFormat "Format chunk size is smaller than expected") ∧
    (∃ f, parseFormatChunk [6, 0, 1, 0, 64, 31, 0, 0, 2, 0, 0, 0, 1, 0, 8, 0, 0, 0] =
       Except.ok f ∧ f.audio_format = 6 ∧
       ∀ s : ParserState, s.format_info = some f →
         validate_format s =
           Except.error (.invalidFormat "Unsupported audio format (only PCM is supported)")) :=
  ⟨C8_format_chunk_errors.1 [] (by decide),
   C8_format_chunk_errors.2.1 _ (by decide) (by decide) (by decide),
   C8_format_chunk_errors.2.2.1 _ (by decide) (by decide) (by decide),
   C8_format_chunk_errors.2.2.2 _ (by decide) (by decide) (by decide)⟩

/-- Claim C10: parse is NOT total over the documented error
categories: on wav4 (PCM, bits_per_sample = 4, one channel, one byte
of audio data) the post-parse validation passes but the sample-count
computation divides by (4 // 8) * 1 = 0, and parse escapes with
Python's ZeroDivisionError, which is none of the documented
categories. -/
theorem C10_zero_division :
    (parse wav4).2 = Except.error WAVErr.zeroDivisionError ∧
    WAVErr.zeroDivisionError ≠ WAVErr.corruptedFile "Incomplete chunk" ∧
    validate_format (parse wav4).1 = Except.ok () :=
  ⟨by rfl, by decide, by rfl⟩

/-- Claim C1: round-trip identity.  For every byte stream that parses
successfully, write_wav succeeds on the unmodified session and
re-parsing its output yields a session with identical audio_data, the
same set of chunk ids, byte-for-byte identical data payload for every
chunk, and identical decoded format fields (audio_format, channels,
sample_rate, byte_rate, block_align, bits_per_sample). -/
theorem C1_round_trip (bs : List Nat) (st : ParserState) (info : WAVInfo)
    (hb : ∀ b ∈ bs, b < 256) (h : parse bs = (st, Except.ok info)) :
    ∃ out n st' info', write_wav st = Except.ok (out, n) ∧
      parse out = (st', Except.ok info') ∧
      st'.audio_data = st.audio_data ∧
      (∀ id, (lookupChunk st'.chunks id).isSome ↔ (lookupChunk st.chunks id).isSome) ∧
      (∀ id c c', lookupChunk st.chunks id = some c →
        lookupChunk st'.chunks id = some c' → c'.data = c.data) ∧
      st'.format_info.map formatFields = st.format_info.map formatFields := by
  obtain ⟨hwf, ⟨cd, hcd, haud⟩, ⟨f, cf, hf, hcf, hdec, hpcm, hch, hsr⟩, hinfo⟩ :=
    parse_ok_state bs st info hb h
  have hsc : ∃ n, calculate_sample_count st = Except.ok n :=
    ⟨info.sample_count, (get_info_ok_elim st f info hf hinfo).1⟩
  obtain ⟨st', info', hparse, haud', hiff, hdata, hfields⟩ :=
    reparse_writeBytes st f cf cd hwf hf hcf hcd haud hdec hpcm hch hsr hsc
  refine ⟨writeBytes st, writeCount st, st', info',
    write_wav_ok st f hf cf cd hcf hcd, hparse, ?_, hiff, hdata, ?_⟩
  · rw [haud', haud]
  · rw [hfields, hf]
    rfl

/-- Claim C1 witness: the round trip at the concrete session parsed
from wavA. -/
theorem C1_round_trip_witness :
    ∃ out n st' info', write_wav stA = Except.ok (out, n) ∧
      parse out = (st', Except.ok info') ∧
      st'.audio_data = stA.audio_data ∧
      (∀ id, (lookupChunk st'.chunks id).isSome ↔ (lookupChunk stA.chunks id).isSome) ∧
      (∀ id c c', lookupChunk stA.chunks id = some c →
        lookupChunk st'.chunks id = some c' → c'.data = c.data) ∧
      st'.format_info.map formatFields = stA.format_info.map formatFields :=
  C1_round_trip wavA stA infoA (by decide) (by rfl)

/-- Claim C5: write ordering.  write_wav places the "fmt " chunk's
8-byte header at offset 12, the "data" chunk's header immediately
after fmt's payload plus pad, and then the remaining chunks, whose id
list is exactly the other store keys in ascending lexicographic
order, regardless of store (insertion) order. -/
theorem C5_write_ordering (st : ParserState) (f : WAVFormat) (cf cd : WAVChunk)
    (hf : st.format_info = some f) (hwf : StoreWF st.chunks)
    (hcf : lookupChunk st.chunks fmtId = some cf)
    (hcd : lookupChunk st.chunks dataId = some cd) :
    ∃ out n, write_wav st = Except.ok (out, n) ∧
      (out.drop 12).take 8 = fmtId ++ pack4 cf.size ∧
      (out.drop (12 + (8 + cf.size + chunkPad cf.size))).take 8 = dataId ++ pack4 cd.size ∧
      out.drop (12 + (8 + cf.size + chunkPad cf.size) + (8 + cd.size + chunkPad cd.size)) =
        ((otherKeys st).map (fun k => serialize_chunk (chunkAtKey st k))).flatten ∧
      (otherKeys st).Pairwise (fun a b => keyLe a b = true) ∧
      (otherKeys st).Perm
        ((st.chunks.map Prod.fst).filter (fun k => ¬ (k = fmtId ∨ k = dataId))) := by
  have hcfwf : ChunkWF fmtId cf := lookup_wf _ _ _ hwf.1 hcf
  have hcdwf : ChunkWF dataId cd := lookup_wf _ _ _ hwf.1 hcd
  have hatf : chunkAtKey st fmtId = cf := by rw [chunkAtKey, hcf]; rfl
  have hatd : chunkAtKey st dataId = cd := by rw [chunkAtKey, hcd]; rfl
  have hserf : (serialize_chunk cf).length = 8 + cf.size + chunkPad cf.size :=
    serialize_chunk_length cf (hcfwf.1 ▸ hcfwf.2.1) hcfwf.2.2.2.1
  have hserd : (serialize_chunk cd).length = 8 + cd.size + chunkPad cd.size :=
    serialize_chunk_length cd (hcdwf.1 ▸ hcdwf.2.1) hcdwf.2.2.2.1
  have hhd : ((riffTag ++ pack4 (riffSizeOf st)) ++ waveTag).length = 12 := by
    simp [riffTag, waveTag, pack4]
  have hexp : writeBytes st = ((riffTag ++ pack4 (riffSizeOf st)) ++ waveTag) ++
      (serialize_chunk cf ++ (serialize_chunk cd ++
        ((otherKeys st).map (fun k => serialize_chunk (chunkAtKey st k))).flatten)) := by
    rw [writeBytes, writeOrder]
    simp [hatf, hatd]
  refine ⟨writeBytes st, writeCount st, write_wav_ok st f hf cf cd hcf hcd, ?_, ?_, ?_,
    otherKeys_sorted st, (sortKeys_perm _).filter _⟩
  · rw [hexp, List.drop_left' hhd]
    have : serialize_chunk cf ++ (serialize_chunk cd ++
        ((otherKeys st).map (fun k => serialize_chunk (chunkAtKey st k))).flatten) =
        (cf.id ++ pack4 cf.size) ++
          ((cf.data ++ (if cf.size % 2 = 1 then [0] else [])) ++ (serialize_chunk cd ++
            ((otherKeys st).map (fun k => serialize_chunk (chunkAtKey st k))).flatten)) := by
      rw [serialize_chunk]
      simp [List.append_assoc]
    rw [this, List.take_left' (by rw [List.length_append, hcfwf.1]; rfl), hcfwf.1]
  · rw [hexp]
    have hassoc : ((riffTag ++ pack4 (riffSizeOf st)) ++ waveTag) ++
        (serialize_chunk cf ++ (serialize_chunk cd ++
          ((otherKeys st).map (fun k => serialize_chunk (chunkAtKey st k))).flatten)) =
        (((riffTag ++ pack4 (riffSizeOf st)) ++ waveTag) ++ serialize_chunk cf) ++
          (serialize_chunk cd ++
            ((otherKeys st).map (fun k => serialize_chunk (chunkAtKey st k))).flatten) := by
      simp [List.append_assoc]
    rw [hassoc, List.drop_left' (by rw [List.length_append, hhd, hserf])]
    have : serialize_chunk cd ++
        ((otherKeys st).map (fun k => serialize_chunk (chunkAtKey st k))).flatten =
        (cd.id ++ pack4 cd.size) ++
          ((cd.data ++ (if cd.size % 2 = 1 then [0] else [])) ++
            ((otherKeys st).map (fun k => serialize_chunk (chunkAtKey st k))).flatten) := by
      rw [serialize_chunk]
      simp [List.append_assoc]
    rw [this, List.take_left' (by rw [List.length_append, hcdwf.1]; rfl), hcdwf.1]
  · rw [hexp]
    have hassoc : ((riffTag ++ pack4 (riffSizeOf st)) ++ waveTag) ++
        (serialize_chunk cf ++ (serialize_chunk cd ++
          ((otherKeys st).map (fun k => serialize_chunk (chunkAtKey st k))).flatten)) =
        ((((riffTag ++ pack4 (riffSizeOf st)) ++ waveTag) ++ serialize_chunk cf) ++
          serialize_chunk cd) ++
          ((otherKeys st).map (fun k => serialize_chunk (chunkAtKey st k))).flatten := by
      simp [List.append_assoc]
    rw [hassoc, List.drop_left']
    rw [List.length_append, List.length_append, hhd, hserf, hserd]

/-- Claim C5 witness: the write ordering at the concrete session
parsed from wavA. -/
theorem C5_write_ordering_witness :
    ∃ out n, write_wav stA = Except.ok (out, n) ∧
      (out.drop 12).take 8 = fmtId ++ pack4 16 ∧
      (out.drop (12 + (8 + 16 + chunkPad 16))).take 8 = dataId ++ pack4 2 ∧
      out.drop (12 + (8 + 16 + chunkPad 16) + (8 + 2 + chunkPad 2)) =
        ((otherKeys stA).map (fun k => serialize_chunk (chunkAtKey stA k))).flatten ∧
      (otherKeys stA).Pairwise (fun a b => keyLe a b = true) ∧
      (otherKeys stA).Perm
        ((stA.chunks.map Prod.fst).filter (fun k => ¬ (k = fmtId ∨ k = dataId))) :=
  C5_write_ordering stA ⟨1, 1, 8000, 2, 1, 8, durA⟩ ⟨fmtId, 16, fmtPCM, 20⟩
    ⟨dataId, 2, [7, 8], 44⟩ (by rfl)
    ⟨by intro p hp; fin_cases hp <;> exact ⟨rfl, rfl, by decide, rfl, by decide⟩, by decide⟩
    (by rfl) (by rfl)

/-- Claim C9: write_wav declares a RIFF size equal to 4 plus the sum
over all stored chunks of 8 + size + pad, and returns a byte count of
12 plus that same per-chunk sum. -/
theorem C9_serializer_sizes (st : ParserState) (f : WAVFormat) (cf cd : WAVChunk)
    (hf : st.format_info = some f) (hwf : StoreWF st.chunks)
    (hcf : lookupChunk st.chunks fmtId = some cf)
    (hcd : lookupChunk st.chunks dataId = some cd) :
    ∃ out n, write_wav st = Except.ok (out, n) ∧
      n = 12 + (st.chunks.map (fun p => 8 + p.2.size + chunkPad p.2.size)).sum ∧
      (out.drop 4).take 4 =
        pack4 (4 + (st.chunks.map (fun p => 8 + p.2.size + chunkPad p.2.size)).sum) ∧
      (4 + (st.chunks.map (fun p => 8 + p.2.size + chunkPad p.2.size)).sum < 4294967296 →
        unpackLE ((out.drop 4).take 4) =
          4 + (st.chunks.map (fun p => 8 + p.2.size + chunkPad p.2.size)).sum) := by
  have hfm : fmtId ∈ st.chunks.map Prod.fst :=
    (lookup_isSome_iff_mem _ _).mp (by rw [hcf]; rfl)
  have hdm : dataId ∈ st.chunks.map Prod.fst :=
    (lookup_isSome_iff_mem _ _).mp (by rw [hcd]; rfl)
  have hcount := writeCount_eq st hwf.2 hfm hdm
  have hriff := riffSizeOf_eq st
  have htake : ((writeBytes st).drop 4).take 4 = pack4 (riffSizeOf st) := by
    have hr : writeBytes st = riffTag ++ (pack4 (riffSizeOf st) ++ (waveTag ++
        ((writeOrder st).map (fun k => serialize_chunk (chunkAtKey st k))).flatten)) := by
      rw [writeBytes]
      simp [List.append_assoc]
    rw [hr, List.drop_left' (by rfl : riffTag.length = 4),
        List.take_left' (pack4_length _)]
  refine ⟨writeBytes st, writeCount st, write_wav_ok st f hf cf cd hcf hcd, hcount, ?_, ?_⟩
  · rw [htake, hriff]
  · intro hlt
    rw [htake, unpackLE_pack4, hriff, Nat.mod_eq_of_lt (hriff ▸ hlt)]

/-- Claim C9 witness: the size computation at the concrete session
parsed from wavA: the per-chunk sum is (8+16+0) + (8+2+0) = 34. -/
theorem C9_serializer_sizes_witness :
    ∃ out n, write_wav stA = Except.ok (out, n) ∧
      n = 12 + (stA.chunks.map (fun p => 8 + p.2.size + chunkPad p.2.size)).sum ∧
      (out.drop 4).take 4 =
        pack4 (4 + (stA.chunks.map (fun p => 8 + p.2.size + chunkPad p.2.size)).sum) ∧
      (4 + (stA.chunks.map (fun p => 8 + p.2.size + chunkPad p.2.size)).sum < 4294967296 →
        unpackLE ((out.drop 4).take 4) =
          4 + (stA.chunks.map (fun p => 8 + p.2.size + chunkPad p.2.size)).sum) :=
  C9_serializer_sizes stA ⟨1, 1, 8000, 2, 1, 8, durA⟩ ⟨fmtId, 16, fmtPCM, 20⟩
    ⟨dataId, 2, [7, 8], 44⟩ (by rfl)
    ⟨by intro p hp; fin_cases hp <;> exact ⟨rfl, rfl, by decide, rfl, by decide⟩, by decide⟩
    (by rfl) (by rfl)

end Riffy
